import Mathlib

/-!
Verification of the mock-API sandbox core: JSON data model, call-signature
fingerprinting (utils.stable_hash), access policy (type.Policy.is_allowed),
fault profile (type.FaultProfile), fixture store (fixtures.FixtureStore),
response synthesis (generator.DataGenerator.generate and
data_generator.DataGenerator.generate) and the invocation pipeline
(sandbox.Sandbox.invoke).

Machine integers are modelled as Int/Nat, Python floats as rationals, Python
dicts as insertion-ordered association lists, the filesystem-backed fixture
store as a map, and every stdlib pseudo-random draw as a value read from an
oracle stream, so that determinism and data flow are preserved exactly.
-/

/-- A JSON-like Python value: None, bool, int, float, str, list, dict.
Dicts keep insertion order, as Python dicts do. -/
inductive JVal where
  | null : JVal
  | bool (b : Bool) : JVal
  | int (n : Int) : JVal
  | num (q : ℚ) : JVal
  | str (s : String) : JVal
  | arr (xs : List JVal) : JVal
  | obj (fields : List (String × JVal)) : JVal

mutual
/-- Size of a JSON value, used as a termination measure. -/
def jsize : JVal → Nat
  | .null => 1
  | .bool _ => 1
  | .int _ => 1
  | .num _ => 1
  | .str _ => 1
  | .arr xs => 1 + jsizeList xs
  | .obj f => 1 + jsizeFields f

/-- Size of a list of JSON values. -/
def jsizeList : List JVal → Nat
  | [] => 0
  | x :: xs => 1 + jsize x + jsizeList xs

/-- Size of an association list of fields. -/
def jsizeFields : List (String × JVal) → Nat
  | [] => 0
  | kv :: f => 1 + jsize kv.2 + jsizeFields f
end

/-- Lookup of a key in an association list (first match), mirroring Python
dict access where keys are unique. -/
def jlookup (k : String) : List (String × JVal) → Option JVal
  | [] => none
  | kv :: f => if kv.1 = k then some kv.2 else jlookup k f

/-- Python `schema.get(k)` on a dict value: `none` for a non-dict or a
missing key (callers that must distinguish a stored JSON null use hasKey). -/
def jGet (v : JVal) (k : String) : Option JVal :=
  match v with
  | .obj f => jlookup k f
  | _ => none

/-- Python `k in schema` on a dict value. -/
def hasKey (v : JVal) (k : String) : Bool :=
  match v with
  | .obj f => f.any (fun kv => kv.1 = k)
  | _ => false

/-- Python `schema.get(k, d)` on a dict value. -/
def jGetD (v : JVal) (k : String) (d : JVal) : JVal :=
  match jGet v k with
  | some w => w
  | none => d

/-- Byte-order comparison on character lists, mirroring the total order that
Python uses on strings when `json.dumps(..., sort_keys=True)` sorts keys. -/
def charListLe : List Char → List Char → Bool
  | [], _ => true
  | _ :: _, [] => false
  | a :: as, b :: bs =>
    if a.toNat < b.toNat then true
    else if b.toNat < a.toNat then false
    else charListLe as bs

/-- Key order used by the canonical serialization. -/
def strLe (a b : String) : Bool :=
  charListLe a.data b.data

/-- Insert one field into a key-sorted field list. -/
def insertByKey (kv : String × JVal) : List (String × JVal) → List (String × JVal)
  | [] => [kv]
  | h :: t => if strLe kv.1 h.1 then kv :: h :: t else h :: insertByKey kv t

/-- Sort a field list by key, mirroring the key ordering `sort_keys=True`
performs in `json.dumps`. -/
def sortByKey : List (String × JVal) → List (String × JVal)
  | [] => []
  | h :: t => insertByKey h (sortByKey t)

/-- Minimal JSON string escaping of one character. -/
def escChar (c : Char) : String :=
  if c = Char.ofNat 34 then String.mk [Char.ofNat 92, Char.ofNat 34]
  else if c = Char.ofNat 92 then String.mk [Char.ofNat 92, Char.ofNat 92]
  else String.mk [c]

/-- JSON rendering of a string literal. -/
def strRepr (s : String) : String :=
  String.mk [Char.ofNat 34] ++ String.join (s.data.map escChar) ++ String.mk [Char.ofNat 34]

/-- Join rendered items with the compact separator of
`json.dumps(..., separators=(",", ":"))`. -/
def joinComma : List String → String
  | [] => ""
  | [x] => x
  | x :: xs => x ++ "," ++ joinComma xs

/-- Decimal rendering of a rational, standing in for Python float repr. -/
def numRepr (q : ℚ) : String :=
  toString q.num ++ "/" ++ toString q.den

/-- Inserting a field adds its size to the field-list size. -/
theorem jsizeFields_insertByKey (kv : String × JVal) (l : List (String × JVal)) :
    jsizeFields (insertByKey kv l) = 1 + jsize kv.2 + jsizeFields l := by
  induction l with
  | nil => simp [insertByKey, jsizeFields]
  | cons h t ih =>
    by_cases hc : strLe kv.1 h.1 = true
    · simp [insertByKey, hc, jsizeFields]
    · simp only [insertByKey, hc, if_false, Bool.false_eq_true, jsizeFields, ih]
      omega

/-- Sorting the fields preserves the field-list size. -/
theorem jsizeFields_sortByKey (l : List (String × JVal)) :
    jsizeFields (sortByKey l) = jsizeFields l := by
  induction l with
  | nil => rfl
  | cons h t ih => simp [sortByKey, jsizeFields_insertByKey, jsizeFields, ih]

mutual
/-- Canonical serialization of a value: `json.dumps(v, separators=(",",":"),
sort_keys=True)`. Keys of every object are sorted before rendering, at every
nesting level. -/
def dumps : JVal → String
  | .null => "null"
  | .bool true => "true"
  | .bool false => "false"
  | .int n => toString n
  | .num q => numRepr q
  | .str s => strRepr s
  | .arr xs => "[" ++ joinComma (dumpsList xs) ++ "]"
  | .obj f => "\x7b" ++ joinComma (dumpsFields (sortByKey f)) ++ "\x7d"
termination_by v => jsize v
decreasing_by
  all_goals simp only [jsize, jsizeList, jsizeFields, jsizeFields_sortByKey] <;> omega

/-- Render each element of a JSON array. -/
def dumpsList : List JVal → List String
  | [] => []
  | x :: xs => dumps x :: dumpsList xs
termination_by xs => jsizeList xs
decreasing_by
  all_goals simp only [jsize, jsizeList, jsizeFields] <;> omega

/-- Render each (already key-sorted) field as `"key":value`. -/
def dumpsFields : List (String × JVal) → List String
  | [] => []
  | kv :: f => (strRepr kv.1 ++ ":" ++ dumps kv.2) :: dumpsFields f
termination_by f => jsizeFields f
decreasing_by
  all_goals simp only [jsize, jsizeList, jsizeFields] <;> omega
end

/-- Keys of a field list. -/
def fieldKeys (f : List (String × JVal)) : List String :=
  f.map Prod.fst

mutual
/-- Structural identity of two values regardless of dict key insertion
order: scalars must be equal, arrays must match pointwise, and objects must
carry the same unduplicated key set with structurally identical values. -/
def jequiv : JVal → JVal → Bool
  | .null, .null => true
  | .bool a, .bool b => decide (a = b)
  | .int a, .int b => decide (a = b)
  | .num a, .num b => decide (a = b)
  | .str a, .str b => decide (a = b)
  | .arr xs, .arr ys => jequivList xs ys
  | .obj f, .obj g =>
    decide (fieldKeys f).Nodup && decide (fieldKeys g).Nodup
      && decide (f.length = g.length) && jequivFields f g
  | _, _ => false
termination_by a _ => jsize a
decreasing_by
  all_goals simp only [jsize, jsizeList, jsizeFields] <;> omega

/-- Pointwise structural identity of arrays. -/
def jequivList : List JVal → List JVal → Bool
  | [], [] => true
  | x :: xs, y :: ys => jequiv x y && jequivList xs ys
  | _, _ => false
termination_by xs _ => jsizeList xs
decreasing_by
  all_goals simp only [jsize, jsizeList, jsizeFields] <;> omega

/-- Each field of the first object has a structurally identical value in the
second object under the same key. -/
def jequivFields : List (String × JVal) → List (String × JVal) → Bool
  | [], _ => true
  | kv :: f, g =>
    (match jlookup kv.1 g with
     | some w => jequiv kv.2 w
     | none => false) && jequivFields f g
termination_by f _ => jsizeFields f
decreasing_by
  all_goals simp only [jsize, jsizeList, jsizeFields] <;> omega
end

/-- The call-signature fingerprint `utils.stable_hash(*parts)`:
`json.dumps` of the parts tuple with sorted keys and compact separators, fed
to a digest function. The digest (sha256 hexdigest truncated to 16 chars in
the source) is abstracted as a parameter `h`; every property proved below
holds for an arbitrary digest. -/
def stable_hash (h : String → String) (parts : List JVal) : String :=
  h (dumps (.arr parts))

/-! ### Order and sorting lemmas for the canonical serialization -/

/-- Characters with the same code point are equal. -/
theorem char_eq_of_toNat_eq {a b : Char} (h : a.toNat = b.toNat) : a = b :=
  Char.ext (UInt32.ext h)

/-- The byte-order comparison is total. -/
theorem charListLe_total : ∀ as bs, charListLe as bs = true ∨ charListLe bs as = true := by
  intro as
  induction as with
  | nil => intro bs; left; rfl
  | cons a as ih =>
    intro bs
    cases bs with
    | nil => right; rfl
    | cons b bs =>
      by_cases hab : a.toNat < b.toNat
      · left; simp [charListLe, hab]
      · by_cases hba : b.toNat < a.toNat
        · right; simp [charListLe, hba]
        · rcases ih bs with h | h
          · left; simp [charListLe, hab, hba, h]
          · right; simp [charListLe, hab, hba, h]

/-- The byte-order comparison is antisymmetric. -/
theorem charListLe_antisymm :
    ∀ as bs, charListLe as bs = true → charListLe bs as = true → as = bs := by
  intro as
  induction as with
  | nil =>
    intro bs h1 h2
    cases bs with
    | nil => rfl
    | cons b bs => simp [charListLe] at h2
  | cons a as ih =>
    intro bs h1 h2
    cases bs with
    | nil => simp [charListLe] at h1
    | cons b bs =>
      by_cases hab : a.toNat < b.toNat
      · simp [charListLe, hab, Nat.lt_asymm hab, Nat.ne_of_lt hab] at h2
      · by_cases hba : b.toNat < a.toNat
        · simp [charListLe, hab, hba] at h1
        · have hev : a = b := char_eq_of_toNat_eq (by omega)
          subst hev
          simp only [charListLe, hab, if_false, if_neg hab] at h1 h2
          rw [ih bs h1 h2]

/-- The byte-order comparison is transitive. -/
theorem charListLe_trans :
    ∀ as bs cs, charListLe as bs = true → charListLe bs cs = true →
      charListLe as cs = true := by
  intro as
  induction as with
  | nil => intro bs cs h1 h2; rfl
  | cons a as ih =>
    intro bs cs h1 h2
    cases bs with
    | nil => simp [charListLe] at h1
    | cons b bs =>
      cases cs with
      | nil => simp [charListLe] at h2
      | cons c cs =>
        simp only [charListLe] at h1 h2 ⊢
        by_cases hab : a.toNat < b.toNat
        · by_cases hba : b.toNat < a.toNat
          · omega
          · simp only [hab, if_true] at h1
            by_cases hbc : b.toNat < c.toNat
            · simp [show a.toNat < c.toNat by omega]
            · by_cases hcb : c.toNat < b.toNat
              · simp [hbc, hcb] at h2
              · simp [show a.toNat < c.toNat by omega]
        · by_cases hba : b.toNat < a.toNat
          · simp [hab, hba] at h1
          · simp only [hab, hba, if_false] at h1
            by_cases hbc : b.toNat < c.toNat
            · simp [show a.toNat < c.toNat by omega]
            · by_cases hcb : c.toNat < b.toNat
              · simp [hbc, hcb] at h2
              · simp only [hbc, hcb, if_false] at h2
                have hrec := ih bs cs h1 h2
                simp [show ¬ a.toNat < c.toNat by omega,
                  show ¬ c.toNat < a.toNat by omega, hrec]

/-- The key order is total. -/
theorem strLe_total (a b : String) : strLe a b = true ∨ strLe b a = true :=
  charListLe_total a.data b.data

/-- The key order is antisymmetric. -/
theorem strLe_antisymm {a b : String} (h1 : strLe a b = true) (h2 : strLe b a = true) :
    a = b := by
  have := charListLe_antisymm a.data b.data h1 h2
  cases a; cases b; exact congrArg String.mk this

/-- The key order is transitive. -/
theorem strLe_trans {a b c : String} (h1 : strLe a b = true) (h2 : strLe b c = true) :
    strLe a c = true :=
  charListLe_trans a.data b.data c.data h1 h2

/-- Order on fields by key, the order `sort_keys=True` sorts by. -/
def leKey (p q : String × JVal) : Prop :=
  strLe p.1 q.1 = true

/-- Insertion produces a permutation of consing. -/
theorem insertByKey_perm (kv : String × JVal) (l : List (String × JVal)) :
    (insertByKey kv l).Perm (kv :: l) := by
  induction l with
  | nil => exact List.Perm.refl _
  | cons h t ih =>
    by_cases hc : strLe kv.1 h.1 = true
    · simp [insertByKey, hc]
    · simp only [insertByKey, hc, if_false, Bool.false_eq_true]
      exact (ih.cons h).trans (List.Perm.swap kv h t)

/-- Sorting produces a permutation of the input fields. -/
theorem sortByKey_perm (l : List (String × JVal)) : (sortByKey l).Perm l := by
  induction l with
  | nil => exact List.Perm.refl _
  | cons h t ih => exact (insertByKey_perm h (sortByKey t)).trans (ih.cons h)

/-- Inserting into a key-sorted field list keeps it key-sorted. -/
theorem insertByKey_pairwise (kv : String × JVal) (l : List (String × JVal))
    (hl : l.Pairwise leKey) : (insertByKey kv l).Pairwise leKey := by
  induction l with
  | nil => simp [insertByKey, List.Pairwise]
  | cons h t ih =>
    rcases List.pairwise_cons.mp hl with ⟨hh, ht⟩
    by_cases hc : strLe kv.1 h.1 = true
    · simp only [insertByKey, hc, if_true]
      refine List.pairwise_cons.mpr ⟨?_, hl⟩
      intro q hq
      rcases List.mem_cons.mp hq with rfl | hq
      · exact hc
      · exact strLe_trans hc (hh q hq)
    · simp only [insertByKey, hc, if_false, Bool.false_eq_true]
      refine List.pairwise_cons.mpr ⟨?_, ih ht⟩
      intro q hq
      have hq2 := (insertByKey_perm kv t).mem_iff.mp hq
      rcases List.mem_cons.mp hq2 with rfl | hq2
      · rcases strLe_total q.1 h.1 with h1 | h1
        · exact absurd h1 hc
        · exact h1
      · exact hh q hq2

/-- The sorted field list is key-sorted. -/
theorem sortByKey_pairwise (l : List (String × JVal)) : (sortByKey l).Pairwise leKey := by
  induction l with
  | nil => simp [sortByKey, List.Pairwise]
  | cons h t ih => exact insertByKey_pairwise h (sortByKey t) ih

/-! ### Lookup and size lemmas -/

/-- A successful lookup is a member of the association list. -/
theorem jlookup_mem {k : String} {g : List (String × JVal)} {w : JVal}
    (h : jlookup k g = some w) : (k, w) ∈ g := by
  induction g with
  | nil => simp [jlookup] at h
  | cons kv f ih =>
    by_cases hc : kv.1 = k
    · simp only [jlookup, hc, if_true, if_pos rfl, Option.some.injEq] at h
      subst h
      subst hc
      exact List.mem_cons_self _ _
    · simp only [jlookup, hc, if_false] at h
      exact List.mem_cons_of_mem _ (ih h)

/-- A member pair contributes its key to the key list. -/
theorem mem_fieldKeys {k : String} {w : JVal} {g : List (String × JVal)}
    (h : (k, w) ∈ g) : k ∈ fieldKeys g :=
  List.mem_map_of_mem Prod.fst h

/-- Every value is of positive size. -/
theorem jsize_pos : ∀ v, 1 ≤ jsize v := by
  intro v
  cases v <;> simp [jsize] <;> omega

/-- An element of an array is strictly smaller than the array body. -/
theorem mem_jsizeList {x : JVal} : ∀ {xs : List JVal}, x ∈ xs → jsize x + 1 ≤ jsizeList xs := by
  intro xs
  induction xs with
  | nil => intro h; simp at h
  | cons y ys ih =>
    intro h
    rcases List.mem_cons.mp h with rfl | h
    · simp [jsizeList]; omega
    · have := ih h
      simp [jsizeList]; omega

/-- A field value is strictly smaller than the field-list body. -/
theorem mem_jsizeFields {kv : String × JVal} :
    ∀ {f : List (String × JVal)}, kv ∈ f → jsize kv.2 + 1 ≤ jsizeFields f := by
  intro f
  induction f with
  | nil => intro h; simp at h
  | cons p ps ih =>
    intro h
    rcases List.mem_cons.mp h with rfl | h
    · simp [jsizeFields]; omega
    · have := ih h
      simp [jsizeFields]; omega

/-- jequivFields provides, for each field on the left, a structurally
identical value under the same key on the right. -/
theorem jequivFields_lookup {f g : List (String × JVal)}
    (h : jequivFields f g = true) :
    ∀ kv ∈ f, ∃ w, jlookup kv.1 g = some w ∧ jequiv kv.2 w = true := by
  induction f with
  | nil => intro kv hkv; simp at hkv
  | cons p ps ih =>
    intro kv hkv
    simp only [jequivFields, Bool.and_eq_true] at h
    obtain ⟨h1, h2⟩ := h
    rcases List.mem_cons.mp hkv with rfl | hkv
    · cases hl : jlookup kv.1 g with
      | none => rw [hl] at h1; simp at h1
      | some w =>
        rw [hl] at h1
        exact ⟨w, rfl, h1⟩
    · exact ih h2 kv hkv

/-- Two key-sorted field lists with unduplicated keys, the same key
multiset, and pointwise-related values under each key, match position by
position. -/
theorem sorted_align (R : JVal → JVal → Prop) :
    ∀ (f g : List (String × JVal)), f.Pairwise leKey → g.Pairwise leKey →
      (fieldKeys f).Nodup → (fieldKeys g).Nodup →
      (fieldKeys f).Perm (fieldKeys g) →
      (∀ kv ∈ f, ∃ w, (kv.1, w) ∈ g ∧ R kv.2 w) →
      List.Forall₂ (fun a b => a.1 = b.1 ∧ R a.2 b.2) f g := by
  intro f
  induction f with
  | nil =>
    intro g _ _ _ _ hperm _
    have : fieldKeys g = [] := (List.Perm.nil_eq hperm).symm
    have : g = [] := List.map_eq_nil.mp this
    subst this
    exact List.Forall₂.nil
  | cons a f' ih =>
    intro g hsf hsg hnf hng hperm hmem
    cases g with
    | nil =>
      have := hperm.length_eq
      simp [fieldKeys] at this
    | cons b g' =>
      rcases List.pairwise_cons.mp hsf with ⟨haf, hsf'⟩
      rcases List.pairwise_cons.mp hsg with ⟨hbg, hsg'⟩
      simp only [fieldKeys, List.map_cons] at hnf hng hperm
      rcases List.nodup_cons.mp hnf with ⟨ha_nf, hnf'⟩
      rcases List.nodup_cons.mp hng with ⟨hb_ng, hng'⟩
      -- the two head keys coincide
      have hkey : a.1 = b.1 := by
        have hmem_a : a.1 ∈ b.1 :: List.map Prod.fst g' :=
          hperm.subset (List.mem_cons_self _ _)
        have hmem_b : b.1 ∈ a.1 :: List.map Prod.fst f' :=
          hperm.symm.subset (List.mem_cons_self _ _)
        rcases List.mem_cons.mp hmem_a with h1 | h1
        · exact h1
        · rcases List.mem_cons.mp hmem_b with h2 | h2
          · exact h2.symm
          · -- a.1 among tail keys of g, b.1 among tail keys of f: antisymmetry
            rcases List.mem_map.mp h1 with ⟨q, hq, hq1⟩
            rcases List.mem_map.mp h2 with ⟨p, hp, hp1⟩
            have h3 : strLe b.1 a.1 = true := by
              have := hbg q hq
              rw [leKey] at this
              rw [hq1] at this
              exact this
            have h4 : strLe a.1 b.1 = true := by
              have := haf p hp
              rw [leKey] at this
              rw [hp1] at this
              exact this
            exact strLe_antisymm h4 h3
      -- the head values are related
      rcases hmem a (List.mem_cons_self _ _) with ⟨w, hw, hRw⟩
      have hhead : R a.2 b.2 := by
        rcases List.mem_cons.mp hw with h1 | h1
        · have : w = b.2 := congrArg Prod.snd h1
          rwa [this] at hRw
        · exfalso
          have hmw : a.1 ∈ fieldKeys g' := mem_fieldKeys h1
          simp only [fieldKeys] at hmw
          rw [hkey] at hmw
          exact hb_ng hmw
      refine List.Forall₂.cons ⟨hkey, hhead⟩ ?_
      -- align the tails
      apply ih g' hsf' hsg' hnf' hng'
      · have hp2 := hperm
        rw [hkey] at hp2
        exact hp2.cons_inv
      · intro kv hkv
        rcases hmem kv (List.mem_cons_of_mem _ hkv) with ⟨w2, hw2, hRw2⟩
        rcases List.mem_cons.mp hw2 with h1 | h1
        · exfalso
          have hk1 : kv.1 = b.1 := by rw [← h1]
          have : kv.1 ∈ List.map Prod.fst f' := List.mem_map_of_mem Prod.fst hkv
          rw [hk1, ← hkey] at this
          exact ha_nf this
        · exact ⟨w2, h1, hRw2⟩

/-- Position-by-position matching fields render identically. -/
theorem dumpsFields_congr :
    ∀ {f g : List (String × JVal)},
      List.Forall₂ (fun a b => a.1 = b.1 ∧ dumps a.2 = dumps b.2) f g →
      dumpsFields f = dumpsFields g := by
  intro f
  induction f with
  | nil =>
    intro g h
    cases h
    rfl
  | cons a f' ih =>
    intro g h
    cases h with
    | cons hab htail =>
      simp only [dumpsFields]
      rw [hab.1, hab.2, ih htail]

/-- Pointwise structurally identical arrays render identically, given the
renderings agree on each element. -/
theorem dumpsList_congr :
    ∀ (xs ys : List JVal), jequivList xs ys = true →
      (∀ x ∈ xs, ∀ y, jequiv x y = true → dumps x = dumps y) →
      dumpsList xs = dumpsList ys := by
  intro xs
  induction xs with
  | nil =>
    intro ys h _
    cases ys with
    | nil => rfl
    | cons y ys => simp [jequivList] at h
  | cons x xs ih =>
    intro ys h hel
    cases ys with
    | nil => simp [jequivList] at h
    | cons y ys =>
      simp only [jequivList, Bool.and_eq_true] at h
      simp only [dumpsList]
      rw [hel x (List.mem_cons_self _ _) y h.1,
        ih ys h.2 (fun x2 hx2 => hel x2 (List.mem_cons_of_mem _ hx2))]

/-- Structurally identical values have the same canonical serialization:
`json.dumps(..., sort_keys=True)` does not depend on dict insertion order. -/
theorem dumps_eq_of_jequiv : ∀ (n : Nat) (a b : JVal), jsize a ≤ n →
    jequiv a b = true → dumps a = dumps b := by
  intro n
  induction n with
  | zero =>
    intro a b hs _
    have := jsize_pos a
    omega
  | succ n ih =>
    intro a b hs heq
    cases a with
    | null => cases b <;> simp_all [jequiv]
    | bool x => cases b <;> simp_all [jequiv] <;> cases x <;> simp_all
    | int x => cases b <;> simp_all [jequiv]
    | num x => cases b <;> simp_all [jequiv]
    | str x => cases b <;> simp_all [jequiv]
    | arr xs =>
      cases b with
      | arr ys =>
        have hlist : jequivList xs ys = true := by
          simpa [jequiv] using heq
        simp only [jsize] at hs
        simp only [dumps]
        rw [dumpsList_congr xs ys hlist]
        intro x hx y hxy
        exact ih x y (by have := mem_jsizeList hx; omega) hxy
      | null => simp [jequiv] at heq
      | bool _ => simp [jequiv] at heq
      | int _ => simp [jequiv] at heq
      | num _ => simp [jequiv] at heq
      | str _ => simp [jequiv] at heq
      | obj _ => simp [jequiv] at heq
    | obj f =>
      cases b with
      | obj g =>
        simp only [jequiv, Bool.and_eq_true, decide_eq_true_eq] at heq
        obtain ⟨⟨⟨hnf, hng⟩, hlen⟩, hfields⟩ := heq
        simp only [jsize] at hs
        simp only [dumps]
        have halign : List.Forall₂ (fun a b => a.1 = b.1 ∧ dumps a.2 = dumps b.2)
            (sortByKey f) (sortByKey g) := by
          apply sorted_align (fun v w => dumps v = dumps w)
          · exact sortByKey_pairwise f
          · exact sortByKey_pairwise g
          · exact (((sortByKey_perm f).map Prod.fst).nodup_iff).mpr hnf
          · exact (((sortByKey_perm g).map Prod.fst).nodup_iff).mpr hng
          · -- key multisets coincide: keys of f are a nodup subset of keys of g
            -- of equal length
            have hsub : fieldKeys f ⊆ fieldKeys g := by
              intro k hk
              rcases List.mem_map.mp hk with ⟨kv, hkv, hk1⟩
              rcases jequivFields_lookup hfields kv hkv with ⟨w, hw, _⟩
              have := mem_fieldKeys (jlookup_mem hw)
              rwa [hk1] at this
            have hperm : (fieldKeys f).Perm (fieldKeys g) := by
              apply List.Subperm.perm_of_length_le (hnf.subperm hsub)
              simp [fieldKeys, hlen]
            exact ((sortByKey_perm f).map Prod.fst).trans
              (hperm.trans ((sortByKey_perm g).map Prod.fst).symm)
          · intro kv hkv
            have hkv2 : kv ∈ f := (sortByKey_perm f).subset hkv
            rcases jequivFields_lookup hfields kv hkv2 with ⟨w, hw, hRw⟩
            refine ⟨w, ((sortByKey_perm g).mem_iff).mpr (jlookup_mem hw), ?_⟩
            apply ih kv.2 w _ hRw
            have := mem_jsizeFields hkv2
            omega
        rw [dumpsFields_congr halign]
      | null => simp [jequiv] at heq
      | bool _ => simp [jequiv] at heq
      | int _ => simp [jequiv] at heq
      | num _ => simp [jequiv] at heq
      | str _ => simp [jequiv] at heq
      | arr _ => simp [jequiv] at heq

/-- Structural identity of arguments lifts to the serialized parts tuple
`(operation_name, arguments)`. -/
theorem jequiv_parts {name : String} {a b : JVal} (h : jequiv a b = true) :
    jequiv (.arr [.str name, a]) (.arr [.str name, b]) = true := by
  simp [jequiv, jequivList, h]

/-- Structurally identical parts have equal fingerprints, for any digest. -/
theorem stable_hash_congr (h : String → String) (name : String) {a b : JVal}
    (he : jequiv a b = true) :
    stable_hash h [.str name, a] = stable_hash h [.str name, b] := by
  unfold stable_hash
  rw [dumps_eq_of_jequiv (jsize (.arr [.str name, a])) _ _ le_rfl (jequiv_parts he)]

/-- C5. Signature stability: the call-signature fingerprint
`stable_hash(operation_name, arguments)` is invariant under the insertion
order of keys in the argument mapping at every nesting level — structurally
identical name+arguments always produce the same signature. (The claim that
distinct argument values change the signature with overwhelming probability
is a probabilistic property of the truncated sha256 digest and has no exact
counterpart; invariance, the checkable part, is proved for every digest
function.) -/
theorem c5_stable_hash_key_order_invariant (h : String → String) (name : String)
    (args1 args2 : JVal) (he : jequiv args1 args2 = true) :
    stable_hash h [.str name, args1] = stable_hash h [.str name, args2] :=
  stable_hash_congr h name he

/-- C5 witness: fingerprinting the mapping a=1,b=2 and the mapping b=2,a=1
for the same operation yields the same signature. -/
theorem c5_stable_hash_key_order_invariant_witness :
    jequiv (JVal.obj [("a", .int 1), ("b", .int 2)])
        (JVal.obj [("b", .int 2), ("a", .int 1)]) = true
    ∧ stable_hash id [.str "op", .obj [("a", .int 1), ("b", .int 2)]]
        = stable_hash id [.str "op", .obj [("b", .int 2), ("a", .int 1)]] := by
  have hj : jequiv (JVal.obj [("a", .int 1), ("b", .int 2)])
      (JVal.obj [("b", .int 2), ("a", .int 1)]) = true := by
    simp [jequiv, jequivList, jequivFields, jlookup, fieldKeys]
  exact ⟨hj, c5_stable_hash_key_order_invariant id "op" _ _ hj⟩

/-! ### type.Policy -/

/-- type.Policy: allow/deny lists of tool names, each possibly absent. -/
structure Policy where
  allowed_tools : Option (List String) := none
  unallowed_tools : Option (List String) := none
  rate_limit_per_min : Option Int := none

/-- Python truthiness of an optional list: None and the empty list are
falsy. -/
def listTruthy : Option (List String) → Bool
  | none => false
  | some xs => !xs.isEmpty

/-- The single-quote character as a string. -/
def squote : String := String.mk [Char.ofNat 39]

/-- The denial reason produced by Policy.is_allowed. -/
def denyReason (tool_name : String) : String :=
  "Tool " ++ squote ++ tool_name ++ squote ++ " is denied by policy."

/-- type.Policy.is_allowed: deny if the name is in a truthy deny list, else
deny if the allow list is truthy and the name is absent from it, else
allow. -/
def Policy.is_allowed (p : Policy) (tool_name : String) : Bool × Option String :=
  if listTruthy p.unallowed_tools && (p.unallowed_tools.getD []).contains tool_name then
    (false, some (denyReason tool_name))
  else if listTruthy p.allowed_tools && !(p.allowed_tools.getD []).contains tool_name then
    (false, some (denyReason tool_name))
  else
    (true, none)

/-! ### type.FaultProfile -/

/-- type.FaultProfile. The source derives a fresh random.Random from
sha256(seed:key) inside rng(); both sample_latency and should_error consume
the first draw of that fresh generator, so the whole pipeline is abstracted
as one oracle `draw : seed -> key -> rational in [0,1)` passed to each
method. Determinism per (seed, key) is exact: the oracle is a function. -/
structure FaultProfile where
  seed : Int := 42
  min_latency_ms : Int := 10
  max_latency_ms : Int := 120
  error_rate : ℚ := 0

/-- Python int() truncation toward zero of a float. -/
def pyInt (q : ℚ) : Int :=
  Int.tdiv q.num (q.den : Int)

/-- type.FaultProfile.sample_latency: int(r.uniform(min, max)) with r the
fresh per-(seed, key) generator. -/
def FaultProfile.sample_latency (fp : FaultProfile) (draw : Int → String → ℚ)
    (key : String) : Int :=
  pyInt ((fp.min_latency_ms : ℚ)
    + ((fp.max_latency_ms : ℚ) - (fp.min_latency_ms : ℚ)) * draw fp.seed key)

/-- type.FaultProfile.should_error: false when error_rate is not positive,
else compare the fresh draw in [0,1) against error_rate. -/
def FaultProfile.should_error (fp : FaultProfile) (draw : Int → String → ℚ)
    (key : String) : Bool :=
  if fp.error_rate ≤ 0 then false
  else decide (draw fp.seed key < fp.error_rate)

/-! ### The random state threaded through generator.DataGenerator -/

/-- State of one python random.Random instance: an oracle stream of raw
draws and a cursor; each stdlib primitive consumes one draw. -/
structure GenState where
  stream : Nat → Nat
  idx : Nat

/-- Consume one raw draw. -/
def GenState.next (g : GenState) : Nat × GenState :=
  (g.stream g.idx, ⟨g.stream, g.idx + 1⟩)

/-- random.getrandbits(k). -/
def getrandbits (k : Nat) (g : GenState) : Nat × GenState :=
  let (v, g') := g.next
  (v % 2 ^ k, g')

/-- random.randrange(n) for a positive constant n. -/
def randrange (n : Nat) (g : GenState) : Nat × GenState :=
  let (v, g') := g.next
  (v % n, g')

/-- random.randint(low, high): raises ValueError when the range is empty,
else draws an integer in [low, high]. -/
def randint (low high : Int) (g : GenState) : Except String (Int × GenState) :=
  if high < low then
    .error ("empty range in randrange(" ++ toString low ++ ", "
      ++ toString (high + 1) ++ ")")
  else
    let (v, g') := g.next
    .ok (low + ((v % (high - low + 1).toNat : Nat) : Int), g')

/-- random.uniform(low, high) = low + (high - low) * random(), with random()
modelled as a 53-bit draw scaled into [0,1). -/
def pyUniform (low high : ℚ) (g : GenState) : ℚ × GenState :=
  let (v, g') := g.next
  (low + (high - low) * (((v % 2 ^ 53 : Nat) : ℚ) / 2 ^ 53), g')

/-- Zero-padded 32-digit hex rendering, Python f-string 032x. -/
def toHex32 (n : Nat) : String :=
  let ds := Nat.toDigits 16 n
  String.mk (List.replicate (32 - ds.length) (Char.ofNat 48) ++ ds)

/-! ### generator.DataGenerator (the synthesizer Sandbox.invoke uses) -/

/-- generator.DataGenerator._string: canned values for the date-time and
uuid formats, else an s_ prefixed random tag. -/
def DataGenerator.stringGen (format : Option JVal) (g : GenState) : String × GenState :=
  match format with
  | some (.str "date-time") => ("2025-01-01T00:00:00Z", g)
  | some (.str "uuid") =>
    let (bits, g') := getrandbits 128 g
    (toHex32 bits, g')
  | _ =>
    let (v, g') := randrange 1000000 g
    ("s_" ++ toString v, g')

/-- Python equality of a JSON value against a string literal. -/
def isStr (t : JVal) (s : String) : Bool :=
  match t with
  | .str s2 => s2 == s
  | _ => false

/-- Python int(x) coercion: ints pass, bools map to 0/1, floats truncate
toward zero, anything else raises. -/
def pyIntCoerce : JVal → Except String Int
  | .int n => .ok n
  | .bool b => .ok (if b then 1 else 0)
  | .num q => .ok (pyInt q)
  | _ => .error "int() argument must be a number"

/-- The values random.randint accepts as a bound: Python ints and bools. -/
def expectIntArg : JVal → Except String Int
  | .int n => .ok n
  | .bool b => .ok (if b then 1 else 0)
  | _ => .error "non-integer arg 1 for randrange()"

/-- The values random.uniform accepts as a bound. -/
def expectNumArg : JVal → Except String ℚ
  | .int n => .ok (n : ℚ)
  | .bool b => .ok (if b then 1 else 0)
  | .num q => .ok q
  | _ => .error "unsupported operand type for uniform()"

/-- Python truthiness of a JSON value. -/
def jTruthy : JVal → Bool
  | .null => false
  | .bool b => b
  | .int n => decide (n ≠ 0)
  | .num q => decide (q ≠ 0)
  | .str s => !s.isEmpty
  | .arr xs => !xs.isEmpty
  | .obj f => !f.isEmpty

/-- String elements of the required list; a non-string element is rejected
as unusable as a key. -/
def expectStrList : List JVal → Except String (List String)
  | [] => .ok []
  | .str s :: rest => do
    let r ← expectStrList rest
    .ok (s :: r)
  | _ :: _ => .error "unhashable element in required"

/-- set(schema.get("required", [])) of generator.DataGenerator.generate. -/
def requiredKeys (schema : JVal) : Except String (List String) :=
  match jGet schema "required" with
  | none => .ok []
  | some (.arr xs) => expectStrList xs
  | some _ => .error "required is not iterable"

/-- A successful jGet returns a strictly smaller value. -/
theorem jGet_size {s : JVal} {k : String} {v : JVal} (h : jGet s k = some v) :
    jsize v + 2 ≤ jsize s := by
  cases s with
  | obj f =>
    simp only [jGet] at h
    have hmem : (k, v) ∈ f := jlookup_mem h
    have hle : jsize v + 1 ≤ jsizeFields f := mem_jsizeFields hmem
    have hobj : jsize (JVal.obj f) = 1 + jsizeFields f := by simp [jsize]
    omega
  | null => simp [jGet] at h
  | bool _ => simp [jGet] at h
  | int _ => simp [jGet] at h
  | num _ => simp [jGet] at h
  | str _ => simp [jGet] at h
  | arr _ => simp [jGet] at h

/-- The string values generate produces for missing array item schemas,
unfolding generate on the default schema of type string. -/
def genItemsDefault : Nat → GenState → List JVal × GenState
  | 0, g => ([], g)
  | n + 1, g =>
    let (s, g1) := DataGenerator.stringGen none g
    let (rest, g2) := genItemsDefault n g1
    (.str s :: rest, g2)

mutual
/-- generator.DataGenerator.generate: synthesize a sample value from a
JSON-schema fragment. Dispatch order follows the source: non-dict, then
type string / integer / number / boolean / array, then the object default.
Stdlib exceptions (empty randint range, bad coercions) propagate as
Except.error, exactly as the source lets them escape. -/
def DataGenerator.generate (schema : JVal) (g : GenState) :
    Except String (JVal × GenState) :=
  match hsch : schema with
  | .obj _ =>
    let t := jGetD schema "type" (.str "object")
    if isStr t "string" then
      let (s, g1) := DataGenerator.stringGen (jGet schema "format") g
      .ok (.str s, g1)
    else if isStr t "integer" then do
      let low ← expectIntArg (jGetD schema "minimum" (.int 0))
      let high ← expectIntArg (jGetD schema "maximum" (.int 1000))
      let (v, g1) ← randint low high g
      .ok (.int v, g1)
    else if isStr t "number" then do
      let low ← expectNumArg (jGetD schema "minimum" (.int 0))
      let high ← expectNumArg (jGetD schema "maximum" (.int 1000))
      let (v, g1) := pyUniform low high g
      .ok (.num v, g1)
    else if isStr t "boolean" then
      let (b, g1) := getrandbits 1 g
      .ok (.bool (b == 1), g1)
    else if isStr t "array" then do
      let mi0 := jGetD schema "minItems" (.int 1)
      let m ← pyIntCoerce (if jTruthy mi0 then mi0 else .int 1)
      let n := max 1 (min m 3)
      match hit : jGet schema "items" with
      | some items => do
        let (vs, g1) ← DataGenerator.genItems items n.toNat g
        .ok (.arr vs, g1)
      | none =>
        -- generate on the default item schema of type string, unfolded
        let (vs, g1) := genItemsDefault n.toNat g
        .ok (.arr vs, g1)
    else
      match hp : jGet schema "properties" with
      | some (.obj pf) => do
        let required ← requiredKeys schema
        let (out, g1) ← DataGenerator.genFields pf g
        let (out2, g2) ← DataGenerator.genRequired pf required out g1
        .ok (.obj out2, g2)
      | some _ => do
        let _ ← requiredKeys schema
        .error "properties object has no attribute items"
      | none =>
        match hr : jGet schema "required" with
        | none => .ok (.obj [], g)
        | some (.arr xs) => do
          let required ← expectStrList xs
          let (out2, g2) ← DataGenerator.genRequired [] required [] g
          .ok (.obj out2, g2)
        | some _ => .error "required is not iterable"
  | _ => .ok (.null, g)
termination_by (jsize schema, 0)
decreasing_by
  all_goals subst hsch
  · apply Prod.Lex.left
    have hs := jGet_size hit
    omega
  · apply Prod.Lex.left
    have hs := jGet_size hp
    have h2 : jsize (JVal.obj pf) = 1 + jsizeFields pf := by simp [jsize]
    omega
  · apply Prod.Lex.left
    have hs := jGet_size hp
    have h2 : jsize (JVal.obj pf) = 1 + jsizeFields pf := by simp [jsize]
    omega
  · apply Prod.Lex.left
    have hs := jGet_size hr
    have h2 : jsize (JVal.arr xs) = 1 + jsizeList xs := by simp [jsize]
    simp only [jsizeFields]
    omega

/-- The synthesis loop over declared properties. -/
def DataGenerator.genFields (pf : List (String × JVal)) (g : GenState) :
    Except String (List (String × JVal) × GenState) :=
  match pf with
  | [] => .ok ([], g)
  | (k, ps) :: rest => do
    let (v, g1) ← DataGenerator.generate ps g
    let (out, g2) ← DataGenerator.genFields rest g1
    .ok ((k, v) :: out, g2)
termination_by (jsizeFields pf + 2, 0)
decreasing_by
  all_goals apply Prod.Lex.left
  all_goals simp [jsizeFields]
  all_goals omega

/-- The loop filling required keys: output.setdefault(key, generate(ps))
evaluates generate first and keeps an existing key untouched. -/
def DataGenerator.genRequired (pf : List (String × JVal)) (keys : List String)
    (out : List (String × JVal)) (g : GenState) :
    Except String (List (String × JVal) × GenState) :=
  match keys with
  | [] => .ok (out, g)
  | k :: rest =>
    match hk : jlookup k pf with
    | some ps => do
      let (v, g1) ← DataGenerator.generate ps g
      let out2 := if (jlookup k out).isSome then out else out ++ [(k, v)]
      DataGenerator.genRequired pf rest out2 g1
    | none =>
      -- properties.get(key) missed: generate on the default string schema
      let (s, g1) := DataGenerator.stringGen none g
      let out2 := if (jlookup k out).isSome then out else out ++ [(k, .str s)]
      DataGenerator.genRequired pf rest out2 g1
termination_by (jsizeFields pf + 2, keys.length)
decreasing_by
  · apply Prod.Lex.left
    have hm : jsize ps + 1 ≤ jsizeFields pf := mem_jsizeFields (jlookup_mem hk)
    omega
  · apply Prod.Lex.right
    simp
  · apply Prod.Lex.right
    simp

/-- The array comprehension generating n items from one schema. -/
def DataGenerator.genItems (items : JVal) (n : Nat) (g : GenState) :
    Except String (List JVal × GenState) :=
  match n with
  | 0 => .ok ([], g)
  | n + 1 => do
    let (v, g1) ← DataGenerator.generate items g
    let (rest, g2) ← DataGenerator.genItems items n g1
    .ok (v :: rest, g2)
termination_by (jsize items + 1, n)
decreasing_by
  · apply Prod.Lex.left
    omega
  · apply Prod.Lex.right
    omega
end

/-! ### The data model of type.py used by sandbox.Sandbox -/

/-- type.ToolCall. -/
structure ToolCall where
  tool_name : String
  args : JVal
  tool_id : String
  timestamp : String

/-- type.MockedResponse. -/
structure MockedResponse where
  ok : Bool
  data : Option JVal := none
  error : Option String := none
  latency_ms : Int := 0

/-- type.FixtureMetaData. -/
structure FixtureMetaData where
  created_at : String
  signature : String
  seed : Option String := none
  profile : Option String := none
  policy_hash : Option String := none
  notes : Option String := none

/-- type.Fixture. -/
structure Fixture where
  ok : Bool
  data : Option JVal := none
  error : Option String := none
  latency_ms : Int := 0
  metadata : Option FixtureMetaData := none

/-- type.Operation. -/
structure Operation where
  name : String
  param_schema : JVal
  result_schema : JVal
  description : String := ""
  version : String := "v1"

/-- fixtures.FixtureStore: the fixtures/(tool_name)/(signature).json tree,
as a map from the path pair to the stored fixture. -/
def FixtureStore : Type := String → String → Option Fixture

/-- fixtures.FixtureStore.load: read the fixture file of the pair, a miss
being a normal absent result. -/
def FixtureStore.load (s : FixtureStore) (tool_name signature : String) :
    Option Fixture :=
  s tool_name signature

/-- fixtures.FixtureStore.save: write exactly the file of this
(tool name, signature) pair, overwriting a previous fixture there. -/
def FixtureStore.save (s : FixtureStore) (tool_name signature : String)
    (fixture : Fixture) : FixtureStore :=
  fun tn sig => if tn = tool_name ∧ sig = signature then some fixture else s tn sig

/-- api_ops_router.APIOperationsRouter: the registered operation table;
get_op raising KeyError for an absent name is the none case. -/
def APIOperationsRouter : Type := String → Option Operation

/-- str() of a Python KeyError: the repr of its message, in quotes. -/
def keyErrorStr (msg : String) : String :=
  squote ++ msg ++ squote

/-- sandbox.Sandbox: the policy, fault profile and operation table invoke
consults. The recorder is modelled by the list of pairs invoke forwards to
it; the fixture store and generator state are passed and returned
explicitly. -/
structure Sandbox where
  policy : Policy
  fault : FaultProfile
  api_ops_router : APIOperationsRouter

/-- The outcome of one invoke call: the returned (ToolCall, MockedResponse)
pair plus the final fixture store, generator state, and the recordings
forwarded to the recorder. -/
structure InvokeResult where
  invocation : ToolCall
  response : MockedResponse
  fixtures : FixtureStore
  gen : GenState
  recorded : List (ToolCall × MockedResponse)

/-- sandbox.Sandbox.invoke. Parameters beyond the source signature make the
ambient effects explicit: `h` is the sha256-hexdigest truncation inside
stable_hash, `draw` the FaultProfile oracle, `fixtures` and `gen` the
incoming fixture store and generator state, `timestamp` the str(time.time())
of this call. time.sleep is a pure wait with nothing to model. An uncaught
Python exception is an Except.error; the fixture store is then left as it
was when the exception was raised. -/
def Sandbox.invoke (sb : Sandbox) (h : String → String) (draw : Int → String → ℚ)
    (fixtures : FixtureStore) (gen : GenState)
    (tool_name : String) (args : JVal) (record : Bool) (timestamp : String) :
    Except String InvokeResult :=
  let tool_id := stable_hash h [.str tool_name, args]
  let latency := sb.fault.sample_latency draw tool_id
  -- Check policy compliance
  let (allowed, reason) := sb.policy.is_allowed tool_name
  if !allowed then
    let response : MockedResponse := { ok := false, error := reason, latency_ms := 0 }
    let invocation : ToolCall := { tool_name, args, tool_id, timestamp }
    .ok { invocation, response, fixtures, gen,
          recorded := if record then [(invocation, response)] else [] }
  else
    -- Translate a cached fixture into a mocked tool response
    match FixtureStore.load fixtures tool_name tool_id with
    | some cached_fixture =>
      let l1 : Int :=
        if cached_fixture.latency_ms = 0 then latency else cached_fixture.latency_ms
      let l2 : Int := if l1 = 0 then latency else l1
      let response : MockedResponse :=
        { ok := cached_fixture.ok, data := cached_fixture.data,
          error := cached_fixture.error, latency_ms := l2 }
      let invocation : ToolCall := { tool_name, args, tool_id, timestamp }
      .ok { invocation, response, fixtures, gen,
            recorded := if record then [(invocation, response)] else [] }
    | none =>
      -- Synthesize response from spec (no cached fixture for this tool)
      match sb.api_ops_router tool_name with
      | none =>
        let response : MockedResponse :=
          { ok := false,
            error := some (keyErrorStr ("Unknown operation: " ++ tool_name)),
            latency_ms := latency }
        let invocation : ToolCall := { tool_name, args, tool_id, timestamp }
        .ok { invocation, response, fixtures, gen,
              recorded := if record then [(invocation, response)] else [] }
      | some op =>
        let invocation : ToolCall := { tool_name, args, tool_id, timestamp }
        -- Cache the generated fixture, then optionally record and return
        let finishWith : MockedResponse → GenState → Except String InvokeResult :=
          fun response gen2 =>
            let fixture : Fixture :=
              { ok := response.ok, data := response.data, error := response.error,
                latency_ms := response.latency_ms,
                metadata := some { created_at := timestamp, signature := tool_id,
                                   seed := some (toString sb.fault.seed) } }
            let fixtures2 := FixtureStore.save fixtures tool_name tool_id fixture
            .ok { invocation, response, fixtures := fixtures2, gen := gen2,
                  recorded := if record then [(invocation, response)] else [] }
        if sb.fault.should_error draw tool_id then
          finishWith
            { ok := false, error := some "Injected failure (simulated).",
              latency_ms := latency } gen
        else
          match DataGenerator.generate op.result_schema gen with
          | .error e => .error e
          | .ok (data, gen2) =>
            finishWith { ok := true, data := some data, latency_ms := latency } gen2

/-! ### Claims about FaultProfile and Policy -/

/-- C4. Fault-rate boundary: for every signature key, should_error returns
false whenever error_rate is at most 0; and when error_rate is 1.0 it
returns true for every key, given that the uniform draw lies in [0,1). -/
theorem c4_fault_rate_boundary (fp : FaultProfile) (draw : Int → String → ℚ)
    (key : String) :
    (fp.error_rate ≤ 0 → fp.should_error draw key = false)
    ∧ (fp.error_rate = 1 → draw fp.seed key < 1 → fp.should_error draw key = true) := by
  constructor
  · intro hle
    simp [FaultProfile.should_error, hle]
  · intro h1 hlt
    rw [FaultProfile.should_error, h1, if_neg (by norm_num)]
    simpa using hlt

/-- C4 witness: with the default profile (error_rate 0) no error is
injected; with error_rate 1 and a mid-range draw the error fires. -/
theorem c4_fault_rate_boundary_witness :
    FaultProfile.should_error {} (fun _ _ => 0) "k" = false
    ∧ FaultProfile.should_error { error_rate := 1 } (fun _ _ => 1/2) "k" = true :=
  ⟨(c4_fault_rate_boundary {} (fun _ _ => 0) "k").1 (by norm_num),
   (c4_fault_rate_boundary { error_rate := 1 } (fun _ _ => 1/2) "k").2 rfl (by norm_num)⟩

/-- The deny check of is_allowed evaluates to false when no configured deny
list contains the name. -/
theorem deny_check_false {p : Policy} {tool_name : String}
    (hden : ∀ d, p.unallowed_tools = some d → tool_name ∉ d) :
    tool_name ∉ p.unallowed_tools.getD [] := by
  cases hu : p.unallowed_tools with
  | none => simp
  | some d => simpa using hden d hu

/-- C7. Policy precedence: a name on the deny list is denied with an
explanatory reason regardless of the allow list; otherwise a name absent
from a configured (truthy) allow list is denied; otherwise it is allowed.
With denied = X and allowed = X, Y: X is denied, Y allowed, Z denied. -/
theorem c7_policy_precedence :
    (∀ (p : Policy) (tool_name : String) (d : List String),
      p.unallowed_tools = some d → tool_name ∈ d →
      p.is_allowed tool_name = (false, some (denyReason tool_name)))
    ∧ (∀ (p : Policy) (tool_name : String) (a : List String),
      (∀ d, p.unallowed_tools = some d → tool_name ∉ d) →
      p.allowed_tools = some a → a ≠ [] → tool_name ∉ a →
      p.is_allowed tool_name = (false, some (denyReason tool_name)))
    ∧ (∀ (p : Policy) (tool_name : String) (a : List String),
      (∀ d, p.unallowed_tools = some d → tool_name ∉ d) →
      p.allowed_tools = some a → tool_name ∈ a →
      p.is_allowed tool_name = (true, none))
    ∧ Policy.is_allowed ⟨some ["X", "Y"], some ["X"], none⟩ "X"
        = (false, some (denyReason "X"))
    ∧ Policy.is_allowed ⟨some ["X", "Y"], some ["X"], none⟩ "Y" = (true, none)
    ∧ Policy.is_allowed ⟨some ["X", "Y"], some ["X"], none⟩ "Z"
        = (false, some (denyReason "Z")) := by
  refine ⟨?_, ?_, ?_, by decide, by decide, by decide⟩
  · intro p tool_name d hd hmem
    have hne : d ≠ [] := by
      intro hnil
      rw [hnil] at hmem
      simp at hmem
    simp [Policy.is_allowed, listTruthy, hd, hne, hmem]
  · intro p tool_name a hden ha hne hnotmem
    simp [Policy.is_allowed, listTruthy, ha, hne, hnotmem, deny_check_false hden]
  · intro p tool_name a hden ha hmem
    simp [Policy.is_allowed, listTruthy, ha, hmem, deny_check_false hden]

/-- C7 witness: the deny-wins triple at the concrete policy of the claim,
via the general clauses. -/
theorem c7_policy_precedence_witness :
    Policy.is_allowed ⟨some ["X", "Y"], some ["X"], none⟩ "X"
        = (false, some (denyReason "X"))
    ∧ Policy.is_allowed ⟨some ["X", "Y"], some ["X"], none⟩ "Y" = (true, none)
    ∧ Policy.is_allowed ⟨some ["X", "Y"], some ["X"], none⟩ "Z"
        = (false, some (denyReason "Z")) := by
  refine ⟨c7_policy_precedence.1 _ "X" ["X"] rfl (by decide), ?_, ?_⟩
  · exact c7_policy_precedence.2.2.1 _ "Y" ["X", "Y"]
      (by intro d hd; cases hd; decide) rfl (by decide)
  · exact c7_policy_precedence.2.1 _ "Z" ["X", "Y"]
      (by intro d hd; cases hd; decide) rfl (by decide) (by decide)

/-- C10. An empty-but-configured allow list imposes no restriction: it
behaves exactly like an absent allow list and denies nothing on its own;
likewise an empty deny list denies nothing. -/
theorem c10_empty_allow_list_no_restriction :
    (∀ (dl : Option (List String)) (rl : Option Int) (tool_name : String),
      Policy.is_allowed ⟨some [], dl, rl⟩ tool_name
        = Policy.is_allowed ⟨none, dl, rl⟩ tool_name)
    ∧ (∀ (dl : Option (List String)) (rl : Option Int) (tool_name : String),
      (∀ d, dl = some d → tool_name ∉ d) →
      Policy.is_allowed ⟨some [], dl, rl⟩ tool_name = (true, none))
    ∧ (∀ (al : Option (List String)) (rl : Option Int) (tool_name : String),
      Policy.is_allowed ⟨al, some [], rl⟩ tool_name
        = Policy.is_allowed ⟨al, none, rl⟩ tool_name) := by
  refine ⟨?_, ?_, ?_⟩
  · intro dl rl tool_name
    simp [Policy.is_allowed, listTruthy]
  · intro dl rl tool_name hden
    have hd2 : ∀ d, (Policy.mk (some []) dl rl).unallowed_tools = some d →
        tool_name ∉ d := hden
    simp [Policy.is_allowed, listTruthy, deny_check_false hd2]
  · intro al rl tool_name
    simp [Policy.is_allowed, listTruthy]

/-- C10 witness: with allowed_tools the empty list and a disjoint deny
list, an arbitrary tool is allowed, matching the absent-allow-list
policy. -/
theorem c10_empty_allow_list_witness :
    Policy.is_allowed ⟨some [], some ["X"], none⟩ "Y"
        = Policy.is_allowed ⟨none, some ["X"], none⟩ "Y"
    ∧ Policy.is_allowed ⟨some [], some ["X"], none⟩ "Y" = (true, none)
    ∧ Policy.is_allowed ⟨some [], some [], none⟩ "Y"
        = Policy.is_allowed ⟨some [], none, none⟩ "Y" :=
  ⟨c10_empty_allow_list_no_restriction.1 (some ["X"]) none "Y",
   c10_empty_allow_list_no_restriction.2.1 (some ["X"]) none "Y"
     (by intro d hd; cases hd; decide),
   c10_empty_allow_list_no_restriction.2.2 (some []) none "Y"⟩

/-! ### Claims about Sandbox.invoke -/

/-- C3. Policy denial: when the policy denies the operation, invoke returns
immediately with ok false, the policy reason as the error, and latency_ms 0;
the fixture store is untouched and the result depends neither on the store
contents nor on the fault profile or its draws (the right-hand side mentions
none of them); when record is set the (call, response) pair is forwarded to
the recorder. -/
theorem c3_policy_denial (sb : Sandbox) (h : String → String)
    (draw : Int → String → ℚ) (fixtures : FixtureStore) (gen : GenState)
    (tool_name : String) (args : JVal) (record : Bool) (timestamp : String)
    (hd : (sb.policy.is_allowed tool_name).1 = false) :
    Sandbox.invoke sb h draw fixtures gen tool_name args record timestamp =
      .ok ⟨⟨tool_name, args, stable_hash h [.str tool_name, args], timestamp⟩,
           ⟨false, none, (sb.policy.is_allowed tool_name).2, 0⟩,
           fixtures, gen,
           if record then
             [(⟨tool_name, args, stable_hash h [.str tool_name, args], timestamp⟩,
               ⟨false, none, (sb.policy.is_allowed tool_name).2, 0⟩)]
           else []⟩ := by
  rcases hpa : sb.policy.is_allowed tool_name with ⟨allowed, reason⟩
  rw [hpa] at hd
  simp only at hd
  subst hd
  simp [Sandbox.invoke, hpa]

/-- C3 witness: a policy denying X, exercised on X with recording on. -/
theorem c3_policy_denial_witness :
    (Policy.is_allowed ⟨none, some ["X"], none⟩ "X").1 = false
    ∧ Sandbox.invoke ⟨⟨none, some ["X"], none⟩, {}, fun _ => none⟩ (fun s => s)
        (fun _ _ => 0) (fun _ _ => none) ⟨fun _ => 0, 0⟩ "X" (.obj []) true "ts" =
      .ok ⟨⟨"X", .obj [], stable_hash (fun s => s) [.str "X", .obj []], "ts"⟩,
           ⟨false, none, (Policy.is_allowed ⟨none, some ["X"], none⟩ "X").2, 0⟩,
           fun _ _ => none, ⟨fun _ => 0, 0⟩,
           [(⟨"X", .obj [], stable_hash (fun s => s) [.str "X", .obj []], "ts"⟩,
             ⟨false, none, (Policy.is_allowed ⟨none, some ["X"], none⟩ "X").2, 0⟩)]⟩ := by
  have hd : (Policy.is_allowed ⟨none, some ["X"], none⟩ "X").1 = false := by decide
  refine ⟨hd, ?_⟩
  have := c3_policy_denial ⟨⟨none, some ["X"], none⟩, {}, fun _ => none⟩ (fun s => s)
    (fun _ _ => 0) (fun _ _ => none) ⟨fun _ => 0, 0⟩ "X" (.obj []) true "ts" hd
  simpa using this

/-- The full outcome of invoke on a fixture-cache hit: the cached ok, data
and error replay verbatim; the latency is the recorded one when non-falsy,
else the freshly sampled one; nothing is written. -/
theorem invoke_hit (sb : Sandbox) (h : String → String)
    (draw : Int → String → ℚ) (fixtures : FixtureStore) (gen : GenState)
    (tool_name : String) (args : JVal) (record : Bool) (timestamp : String)
    (fx : Fixture)
    (hal : (sb.policy.is_allowed tool_name).1 = true)
    (hfx : fixtures tool_name (stable_hash h [.str tool_name, args]) = some fx) :
    Sandbox.invoke sb h draw fixtures gen tool_name args record timestamp =
      .ok ⟨⟨tool_name, args, stable_hash h [.str tool_name, args], timestamp⟩,
           ⟨fx.ok, fx.data, fx.error,
             if fx.latency_ms = 0
               then sb.fault.sample_latency draw (stable_hash h [.str tool_name, args])
               else fx.latency_ms⟩,
           fixtures, gen,
           if record then
             [(⟨tool_name, args, stable_hash h [.str tool_name, args], timestamp⟩,
               ⟨fx.ok, fx.data, fx.error,
                 if fx.latency_ms = 0
                   then sb.fault.sample_latency draw
                     (stable_hash h [.str tool_name, args])
                   else fx.latency_ms⟩)]
           else []⟩ := by
  rcases hpa : sb.policy.is_allowed tool_name with ⟨allowed, reason⟩
  rw [hpa] at hal
  simp only at hal
  subst hal
  by_cases hl : fx.latency_ms = 0
  · simp [Sandbox.invoke, hpa, FixtureStore.load, hfx, hl]
  · simp [Sandbox.invoke, hpa, FixtureStore.load, hfx, hl]

/-- C8. Cache-hit latency selection: on a hit the response replays the
fixture ok, data and error; its latency is the fixture recorded latency
when one is present (non-zero: an absent latency_ms loads as 0), else the
latency freshly sampled from the fault profile for this signature. -/
theorem c8_cache_hit_latency (sb : Sandbox) (h : String → String)
    (draw : Int → String → ℚ) (fixtures : FixtureStore) (gen : GenState)
    (tool_name : String) (args : JVal) (record : Bool) (timestamp : String)
    (fx : Fixture)
    (hal : (sb.policy.is_allowed tool_name).1 = true)
    (hfx : FixtureStore.load fixtures tool_name
      (stable_hash h [.str tool_name, args]) = some fx) :
    ∃ r, Sandbox.invoke sb h draw fixtures gen tool_name args record timestamp = .ok r
      ∧ r.response.ok = fx.ok
      ∧ r.response.data = fx.data
      ∧ r.response.error = fx.error
      ∧ (fx.latency_ms ≠ 0 → r.response.latency_ms = fx.latency_ms)
      ∧ (fx.latency_ms = 0 → r.response.latency_ms
          = sb.fault.sample_latency draw (stable_hash h [.str tool_name, args]))
      ∧ r.fixtures = fixtures := by
  refine ⟨_, invoke_hit sb h draw fixtures gen tool_name args record timestamp fx hal hfx,
    rfl, rfl, rfl, ?_, ?_, rfl⟩
  · intro hne
    simp [hne]
  · intro hz
    simp [hz]

/-- Saving a fixture makes it the value at its own key. -/
theorem save_load_same (s : FixtureStore) (tn sig : String) (fx : Fixture) :
    FixtureStore.save s tn sig fx tn sig = some fx := by
  simp [FixtureStore.save]

/-- Saving a fixture changes no other key. -/
theorem save_frame (s : FixtureStore) (tn sig tn2 sig2 : String) (fx : Fixture)
    (hne : ¬(tn2 = tn ∧ sig2 = sig)) :
    FixtureStore.save s tn sig fx tn2 sig2 = s tn2 sig2 := by
  simp [FixtureStore.save, hne]

/-- The full outcome of invoke on an allowed call that misses the cache and
names an unregistered operation: a KeyError-shaped failure response, and no
fixture write. -/
theorem invoke_unknown (sb : Sandbox) (h : String → String)
    (draw : Int → String → ℚ) (fixtures : FixtureStore) (gen : GenState)
    (tool_name : String) (args : JVal) (record : Bool) (timestamp : String)
    (hal : (sb.policy.is_allowed tool_name).1 = true)
    (hmiss : fixtures tool_name (stable_hash h [.str tool_name, args]) = none)
    (hrout : sb.api_ops_router tool_name = none) :
    Sandbox.invoke sb h draw fixtures gen tool_name args record timestamp =
      .ok ⟨⟨tool_name, args, stable_hash h [.str tool_name, args], timestamp⟩,
           ⟨false, none, some (keyErrorStr ("Unknown operation: " ++ tool_name)),
             sb.fault.sample_latency draw (stable_hash h [.str tool_name, args])⟩,
           fixtures, gen,
           if record then
             [(⟨tool_name, args, stable_hash h [.str tool_name, args], timestamp⟩,
               ⟨false, none, some (keyErrorStr ("Unknown operation: " ++ tool_name)),
                 sb.fault.sample_latency draw (stable_hash h [.str tool_name, args])⟩)]
           else []⟩ := by
  rcases hpa : sb.policy.is_allowed tool_name with ⟨allowed, reason⟩
  rw [hpa] at hal
  simp only at hal
  subst hal
  simp [Sandbox.invoke, hpa, FixtureStore.load, hmiss, hrout]

/-- The full outcome of invoke on an allowed cache miss of a registered
operation when the fault profile injects a failure: the injected-failure
response, persisted as a fixture under this call signature. -/
theorem invoke_miss_inject (sb : Sandbox) (h : String → String)
    (draw : Int → String → ℚ) (fixtures : FixtureStore) (gen : GenState)
    (tool_name : String) (args : JVal) (record : Bool) (timestamp : String)
    (op : Operation)
    (hal : (sb.policy.is_allowed tool_name).1 = true)
    (hmiss : fixtures tool_name (stable_hash h [.str tool_name, args]) = none)
    (hrout : sb.api_ops_router tool_name = some op)
    (herr : sb.fault.should_error draw (stable_hash h [.str tool_name, args]) = true) :
    Sandbox.invoke sb h draw fixtures gen tool_name args record timestamp =
      .ok ⟨⟨tool_name, args, stable_hash h [.str tool_name, args], timestamp⟩,
           ⟨false, none, some "Injected failure (simulated).",
             sb.fault.sample_latency draw (stable_hash h [.str tool_name, args])⟩,
           FixtureStore.save fixtures tool_name (stable_hash h [.str tool_name, args])
             ⟨false, none, some "Injected failure (simulated).",
               sb.fault.sample_latency draw (stable_hash h [.str tool_name, args]),
               some ⟨timestamp, stable_hash h [.str tool_name, args],
                 some (toString sb.fault.seed), none, none, none⟩⟩,
           gen,
           if record then
             [(⟨tool_name, args, stable_hash h [.str tool_name, args], timestamp⟩,
               ⟨false, none, some "Injected failure (simulated).",
                 sb.fault.sample_latency draw (stable_hash h [.str tool_name, args])⟩)]
           else []⟩ := by
  rcases hpa : sb.policy.is_allowed tool_name with ⟨allowed, reason⟩
  rw [hpa] at hal
  simp only at hal
  subst hal
  simp [Sandbox.invoke, hpa, FixtureStore.load, hmiss, hrout, herr]

/-- The full outcome of invoke on an allowed cache miss of a registered
operation when no failure is injected and body synthesis succeeds: the
synthesized success response, persisted as a fixture under this call
signature. -/
theorem invoke_miss_synth (sb : Sandbox) (h : String → String)
    (draw : Int → String → ℚ) (fixtures : FixtureStore) (gen : GenState)
    (tool_name : String) (args : JVal) (record : Bool) (timestamp : String)
    (op : Operation) (data : JVal) (gen2 : GenState)
    (hal : (sb.policy.is_allowed tool_name).1 = true)
    (hmiss : fixtures tool_name (stable_hash h [.str tool_name, args]) = none)
    (hrout : sb.api_ops_router tool_name = some op)
    (herr : sb.fault.should_error draw (stable_hash h [.str tool_name, args]) = false)
    (hgen : DataGenerator.generate op.result_schema gen = .ok (data, gen2)) :
    Sandbox.invoke sb h draw fixtures gen tool_name args record timestamp =
      .ok ⟨⟨tool_name, args, stable_hash h [.str tool_name, args], timestamp⟩,
           ⟨true, some data, none,
             sb.fault.sample_latency draw (stable_hash h [.str tool_name, args])⟩,
           FixtureStore.save fixtures tool_name (stable_hash h [.str tool_name, args])
             ⟨true, some data, none,
               sb.fault.sample_latency draw (stable_hash h [.str tool_name, args]),
               some ⟨timestamp, stable_hash h [.str tool_name, args],
                 some (toString sb.fault.seed), none, none, none⟩⟩,
           gen2,
           if record then
             [(⟨tool_name, args, stable_hash h [.str tool_name, args], timestamp⟩,
               ⟨true, some data, none,
                 sb.fault.sample_latency draw (stable_hash h [.str tool_name, args])⟩)]
           else []⟩ := by
  rcases hpa : sb.policy.is_allowed tool_name with ⟨allowed, reason⟩
  rw [hpa] at hal
  simp only at hal
  subst hal
  simp [Sandbox.invoke, hpa, FixtureStore.load, hmiss, hrout, herr, hgen]

/-- Invoke propagates an exception raised during body synthesis: on an
allowed cache miss of a registered operation with no injected failure, a
raising generate makes the whole call raise, and nothing is written. -/
theorem invoke_gen_raises (sb : Sandbox) (h : String → String)
    (draw : Int → String → ℚ) (fixtures : FixtureStore) (gen : GenState)
    (tool_name : String) (args : JVal) (record : Bool) (timestamp : String)
    (op : Operation) (e : String)
    (hal : (sb.policy.is_allowed tool_name).1 = true)
    (hmiss : fixtures tool_name (stable_hash h [.str tool_name, args]) = none)
    (hrout : sb.api_ops_router tool_name = some op)
    (herr : sb.fault.should_error draw (stable_hash h [.str tool_name, args]) = false)
    (hgen : DataGenerator.generate op.result_schema gen = .error e) :
    Sandbox.invoke sb h draw fixtures gen tool_name args record timestamp = .error e := by
  rcases hpa : sb.policy.is_allowed tool_name with ⟨allowed, reason⟩
  rw [hpa] at hal
  simp only at hal
  subst hal
  simp [Sandbox.invoke, hpa, FixtureStore.load, hmiss, hrout, herr, hgen]

/-- C9. Frame property of invoke on the fixture store: at most one fixture
is written, only at the key (tool_name, stable_hash(tool_name, args)); every
other key is unchanged in every case; and on the policy-denial, cache-hit
and unknown-operation paths the store is completely unchanged. -/
theorem c9_fixture_store_frame (sb : Sandbox) (h : String → String)
    (draw : Int → String → ℚ) (fixtures : FixtureStore) (gen : GenState)
    (tool_name : String) (args : JVal) (record : Bool) (timestamp : String)
    (r : InvokeResult)
    (hok : Sandbox.invoke sb h draw fixtures gen tool_name args record timestamp
      = .ok r) :
    (∀ tn sig, ¬(tn = tool_name ∧ sig = stable_hash h [.str tool_name, args]) →
        r.fixtures tn sig = fixtures tn sig)
    ∧ ((sb.policy.is_allowed tool_name).1 = false → r.fixtures = fixtures)
    ∧ (∀ fx, fixtures tool_name (stable_hash h [.str tool_name, args]) = some fx →
        r.fixtures = fixtures)
    ∧ (sb.api_ops_router tool_name = none → r.fixtures = fixtures) := by
  rcases hpa : sb.policy.is_allowed tool_name with ⟨allowed, reason⟩
  cases allowed with
  | false =>
    have hlit := c3_policy_denial sb h draw fixtures gen tool_name args record
      timestamp (by rw [hpa])
    rw [hlit] at hok
    simp only [Except.ok.injEq] at hok
    subst hok
    exact ⟨fun tn sig _ => rfl, fun _ => rfl, fun _ _ => rfl, fun _ => rfl⟩
  | true =>
    have hal : (sb.policy.is_allowed tool_name).1 = true := by rw [hpa]
    cases hmiss : fixtures tool_name (stable_hash h [.str tool_name, args]) with
    | some fx =>
      have hlit := invoke_hit sb h draw fixtures gen tool_name args record
        timestamp fx hal hmiss
      rw [hlit] at hok
      simp only [Except.ok.injEq] at hok
      subst hok
      exact ⟨fun tn sig _ => rfl, fun _ => rfl, fun _ _ => rfl, fun _ => rfl⟩
    | none =>
      cases hrout : sb.api_ops_router tool_name with
      | none =>
        have hlit := invoke_unknown sb h draw fixtures gen tool_name args record
          timestamp hal hmiss hrout
        rw [hlit] at hok
        simp only [Except.ok.injEq] at hok
        subst hok
        exact ⟨fun tn sig _ => rfl, fun _ => rfl, fun _ _ => rfl, fun _ => rfl⟩
      | some op =>
        cases herr : sb.fault.should_error draw (stable_hash h [.str tool_name, args]) with
        | true =>
          have hlit := invoke_miss_inject sb h draw fixtures gen tool_name args
            record timestamp op hal hmiss hrout herr
          rw [hlit] at hok
          simp only [Except.ok.injEq] at hok
          subst hok
          refine ⟨?_, ?_, ?_, ?_⟩
          · intro tn sig hne
            exact save_frame fixtures tool_name _ tn sig _ hne
          · intro hden
            simp [hpa] at hden
          · intro fx hsome
            simp [hmiss] at hsome
          · intro hnone
            simp [hrout] at hnone
        | false =>
          cases hgen : DataGenerator.generate op.result_schema gen with
          | error e =>
            have hlit := invoke_gen_raises sb h draw fixtures gen tool_name args
              record timestamp op e hal hmiss hrout herr hgen
            rw [hlit] at hok
            simp at hok
          | ok p =>
            obtain ⟨data, gen2⟩ := p
            have hlit := invoke_miss_synth sb h draw fixtures gen tool_name args
              record timestamp op data gen2 hal hmiss hrout herr hgen
            rw [hlit] at hok
            simp only [Except.ok.injEq] at hok
            subst hok
            refine ⟨?_, ?_, ?_, ?_⟩
            · intro tn sig hne
              exact save_frame fixtures tool_name _ tn sig _ hne
            · intro hden
              simp [hpa] at hden
            · intro fx hsome
              simp [hmiss] at hsome
            · intro hnone
              simp [hrout] at hnone

/-- After any successful invoke of an allowed, registered operation, the
resulting store holds a fixture at the call signature whose ok, data and
error are the returned response fields (freshly persisted on a miss, already
present on a hit). -/
theorem invoke_persists (sb : Sandbox) (h : String → String)
    (draw : Int → String → ℚ) (fixtures : FixtureStore) (gen : GenState)
    (tool_name : String) (args : JVal) (record : Bool) (timestamp : String)
    (r : InvokeResult)
    (hal : (sb.policy.is_allowed tool_name).1 = true)
    (hop : sb.api_ops_router tool_name ≠ none)
    (hok : Sandbox.invoke sb h draw fixtures gen tool_name args record timestamp
      = .ok r) :
    ∃ fx, r.fixtures tool_name (stable_hash h [.str tool_name, args]) = some fx
      ∧ fx.ok = r.response.ok ∧ fx.data = r.response.data
      ∧ fx.error = r.response.error := by
  cases hmiss : fixtures tool_name (stable_hash h [.str tool_name, args]) with
  | some fx =>
    rw [invoke_hit sb h draw fixtures gen tool_name args record timestamp fx
      hal hmiss] at hok
    simp only [Except.ok.injEq] at hok
    subst hok
    exact ⟨fx, hmiss, rfl, rfl, rfl⟩
  | none =>
    cases hrout : sb.api_ops_router tool_name with
    | none => exact absurd hrout hop
    | some op =>
      cases herr : sb.fault.should_error draw (stable_hash h [.str tool_name, args]) with
      | true =>
        rw [invoke_miss_inject sb h draw fixtures gen tool_name args record
          timestamp op hal hmiss hrout herr] at hok
        simp only [Except.ok.injEq] at hok
        subst hok
        exact ⟨_, save_load_same fixtures tool_name _ _, rfl, rfl, rfl⟩
      | false =>
        cases hgen : DataGenerator.generate op.result_schema gen with
        | error e =>
          rw [invoke_gen_raises sb h draw fixtures gen tool_name args record
            timestamp op e hal hmiss hrout herr hgen] at hok
          simp at hok
        | ok p =>
          obtain ⟨data, gen2⟩ := p
          rw [invoke_miss_synth sb h draw fixtures gen tool_name args record
            timestamp op data gen2 hal hmiss hrout herr hgen] at hok
          simp only [Except.ok.injEq] at hok
          subst hok
          exact ⟨_, save_load_same fixtures tool_name _ _, rfl, rfl, rfl⟩

/-- C1. Cache monotonicity / replay determinism: for an allowed, registered
operation, once an invoke has returned (and thus a fixture is persisted for
the signature), every subsequent invoke with structurally identical
(operation, arguments) — any key insertion order — returns a response whose
ok, data and error equal the first response, for an arbitrary second-call
fault draw: the replay never re-samples the error decision, so an injected
failure replays with the same error text. -/
theorem c1_cache_replay (sb : Sandbox) (h : String → String)
    (draw1 draw2 : Int → String → ℚ) (fixtures : FixtureStore) (gen : GenState)
    (tool_name : String) (args1 args2 : JVal) (record1 record2 : Bool)
    (ts1 ts2 : String) (r1 : InvokeResult)
    (hal : (sb.policy.is_allowed tool_name).1 = true)
    (hop : sb.api_ops_router tool_name ≠ none)
    (heq : jequiv args1 args2 = true)
    (h1 : Sandbox.invoke sb h draw1 fixtures gen tool_name args1 record1 ts1
      = .ok r1) :
    ∃ r2, Sandbox.invoke sb h draw2 r1.fixtures r1.gen tool_name args2 record2 ts2
        = .ok r2
      ∧ r2.response.ok = r1.response.ok
      ∧ r2.response.data = r1.response.data
      ∧ r2.response.error = r1.response.error := by
  have hhash : stable_hash h [.str tool_name, args2]
      = stable_hash h [.str tool_name, args1] :=
    (stable_hash_congr h tool_name heq).symm
  obtain ⟨fx, hload, hfok, hfdata, hferr⟩ := invoke_persists sb h draw1 fixtures gen
    tool_name args1 record1 ts1 r1 hal hop h1
  have hload2 : r1.fixtures tool_name (stable_hash h [.str tool_name, args2])
      = some fx := by
    rw [hhash]
    exact hload
  refine ⟨_, invoke_hit sb h draw2 r1.fixtures r1.gen tool_name args2 record2 ts2 fx
    hal hload2, hfok, hfdata, hferr⟩

/-- C1 witness: an operation table with tool t, error rate 1 so the first
call is an injected failure; the second call with the keys of the argument
mapping in the reverse order replays the same failure, ok and error text,
from the persisted fixture. -/
theorem c1_cache_replay_witness :
    ∃ r1 r2,
      Sandbox.invoke ⟨⟨none, none, none⟩, { error_rate := 1 },
          fun n => if n = "t" then some ⟨"t", .obj [], .obj [], "", "v1"⟩ else none⟩
        (fun s => s) (fun _ _ => 0) (fun _ _ => none) ⟨fun _ => 0, 0⟩ "t"
        (.obj [("a", .int 1), ("b", .int 2)]) false "t1" = .ok r1
      ∧ r1.response.ok = false
      ∧ r1.response.error = some "Injected failure (simulated)."
      ∧ Sandbox.invoke ⟨⟨none, none, none⟩, { error_rate := 1 },
          fun n => if n = "t" then some ⟨"t", .obj [], .obj [], "", "v1"⟩ else none⟩
        (fun s => s) (fun _ _ => 0) r1.fixtures r1.gen "t"
        (.obj [("b", .int 2), ("a", .int 1)]) false "t2" = .ok r2
      ∧ r2.response.ok = r1.response.ok
      ∧ r2.response.data = r1.response.data
      ∧ r2.response.error = r1.response.error := by
  have h1 := invoke_miss_inject ⟨⟨none, none, none⟩, { error_rate := 1 },
      fun n => if n = "t" then some ⟨"t", .obj [], .obj [], "", "v1"⟩ else none⟩
    (fun s => s) (fun _ _ => 0) (fun _ _ => none) ⟨fun _ => 0, 0⟩ "t"
    (.obj [("a", .int 1), ("b", .int 2)]) false "t1"
    ⟨"t", .obj [], .obj [], "", "v1"⟩ (by decide) rfl rfl (by decide)
  have heq : jequiv (JVal.obj [("a", .int 1), ("b", .int 2)])
      (JVal.obj [("b", .int 2), ("a", .int 1)]) = true := by
    simp [jequiv, jequivList, jequivFields, jlookup, fieldKeys]
  obtain ⟨r2, h2, e1, e2, e3⟩ := c1_cache_replay ⟨⟨none, none, none⟩, { error_rate := 1 },
      fun n => if n = "t" then some ⟨"t", .obj [], .obj [], "", "v1"⟩ else none⟩
    (fun s => s) (fun _ _ => 0) (fun _ _ => 0) (fun _ _ => none) ⟨fun _ => 0, 0⟩ "t"
    (.obj [("a", .int 1), ("b", .int 2)]) (.obj [("b", .int 2), ("a", .int 1)])
    false false "t1" "t2" _ (by decide) (by simp) heq h1
  exact ⟨_, r2, h1, rfl, rfl, h2, e1, e2, e3⟩

/-- C8 witness: a hit on a stored fixture with a recorded non-zero latency
replays ok, data, error and that latency. -/
theorem c8_cache_hit_latency_witness :
    ∃ r, Sandbox.invoke ⟨⟨none, none, none⟩, {}, fun _ => none⟩ (fun s => s)
        (fun _ _ => 0) (fun _ _ => some ⟨true, some (.int 7), none, 5, none⟩)
        ⟨fun _ => 0, 0⟩ "t" (.obj []) false "ts" = .ok r
      ∧ r.response.ok = true
      ∧ r.response.data = some (.int 7)
      ∧ r.response.error = none
      ∧ r.response.latency_ms = 5 := by
  obtain ⟨r, hr, hok, hdata, herr, hpres, _, _⟩ :=
    c8_cache_hit_latency ⟨⟨none, none, none⟩, {}, fun _ => none⟩ (fun s => s)
      (fun _ _ => 0) (fun _ _ => some ⟨true, some (.int 7), none, 5, none⟩)
      ⟨fun _ => 0, 0⟩ "t" (.obj []) false "ts"
      ⟨true, some (.int 7), none, 5, none⟩ (by decide) rfl
  exact ⟨r, hr, hok, hdata, herr, hpres (by decide)⟩

/-- C9 witness: an invoke that does write (cache miss of a registered
operation with an injected failure) leaves every other key of an initially
empty store empty. -/
theorem c9_fixture_store_frame_witness :
    ∃ r, Sandbox.invoke ⟨⟨none, none, none⟩, { error_rate := 1 },
          fun n => if n = "t" then some ⟨"t", .obj [], .obj [], "", "v1"⟩ else none⟩
        (fun s => s) (fun _ _ => 0) (fun _ _ => none) ⟨fun _ => 0, 0⟩ "t"
        (.obj []) false "ts" = .ok r
      ∧ (∀ tn sig, ¬(tn = "t" ∧ sig = stable_hash (fun s => s) [.str "t", .obj []]) →
          r.fixtures tn sig = none) := by
  have hok := invoke_miss_inject ⟨⟨none, none, none⟩, { error_rate := 1 },
      fun n => if n = "t" then some ⟨"t", .obj [], .obj [], "", "v1"⟩ else none⟩
    (fun s => s) (fun _ _ => 0) (fun _ _ => none) ⟨fun _ => 0, 0⟩ "t"
    (.obj []) false "ts" ⟨"t", .obj [], .obj [], "", "v1"⟩ (by decide) rfl rfl (by decide)
  obtain ⟨hframe, _, _, _⟩ := c9_fixture_store_frame ⟨⟨none, none, none⟩,
      { error_rate := 1 },
      fun n => if n = "t" then some ⟨"t", .obj [], .obj [], "", "v1"⟩ else none⟩
    (fun s => s) (fun _ _ => 0) (fun _ _ => none) ⟨fun _ => 0, 0⟩ "t"
    (.obj []) false "ts" _ hok
  exact ⟨_, hok, fun tn sig hne => hframe tn sig hne⟩

/-- C2 counterexample: the claim says an exception during body synthesis is
caught and converted to an ok false response. On a registered operation
whose result schema has minimum 5 and maximum 3, randint raises, and invoke
returns that exception — an uncaught error, not a MockedResponse. -/
theorem c2_counterexample :
    Sandbox.invoke ⟨⟨none, none, none⟩, {},
        fun n => if n = "t" then some ⟨"t", .obj [],
          .obj [("type", .str "integer"), ("minimum", .int 5), ("maximum", .int 3)],
          "", "v1"⟩ else none⟩
      (fun s => s) (fun _ _ => 0) (fun _ _ => none) ⟨fun _ => 0, 0⟩ "t"
      (.obj []) false "ts" = .error "empty range in randrange(5, 4)" := by
  have hgen : DataGenerator.generate
      (.obj [("type", .str "integer"), ("minimum", .int 5), ("maximum", .int 3)])
      ⟨fun _ => 0, 0⟩ = .error "empty range in randrange(5, 4)" := by
    simp [DataGenerator.generate, jGetD, jGet, jlookup, isStr, expectIntArg, randint,
      bind, Except.bind]
    norm_num
    decide
  exact invoke_gen_raises _ _ _ _ _ _ _ _ _
    ⟨"t", .obj [],
      .obj [("type", .str "integer"), ("minimum", .int 5), ("maximum", .int 3)],
      "", "v1"⟩ _ (by decide) rfl rfl rfl hgen

/-- C2 (amended). An exception raised during response-body synthesis is not
caught: on an allowed, registered operation on a cache miss with no injected
failure, a raising DataGenerator.generate makes invoke itself raise the same
exception, and no fixture is written; only the KeyError of the operation
lookup (unknown operation) is caught and converted to an ok false
response. -/
theorem c2_synthesis_exception_propagates (sb : Sandbox) (h : String → String)
    (draw : Int → String → ℚ) (fixtures : FixtureStore) (gen : GenState)
    (tool_name : String) (args : JVal) (record : Bool) (timestamp : String)
    (op : Operation) (e : String)
    (hal : (sb.policy.is_allowed tool_name).1 = true)
    (hmiss : fixtures tool_name (stable_hash h [.str tool_name, args]) = none)
    (hrout : sb.api_ops_router tool_name = some op)
    (herr : sb.fault.should_error draw (stable_hash h [.str tool_name, args]) = false)
    (hgen : DataGenerator.generate op.result_schema gen = .error e) :
    Sandbox.invoke sb h draw fixtures gen tool_name args record timestamp
      = .error e :=
  invoke_gen_raises sb h draw fixtures gen tool_name args record timestamp op e
    hal hmiss hrout herr hgen

/-- C2 witness: the propagation theorem applied at the concrete raising
schema. -/
theorem c2_synthesis_exception_propagates_witness :
    DataGenerator.generate
      (.obj [("type", .str "integer"), ("minimum", .int 5), ("maximum", .int 3)])
      ⟨fun _ => 0, 0⟩ = .error "empty range in randrange(5, 4)"
    ∧ Sandbox.invoke ⟨⟨none, none, none⟩, {},
        fun n => if n = "t" then some ⟨"t", .obj [],
          .obj [("type", .str "integer"), ("minimum", .int 5), ("maximum", .int 3)],
          "", "v1"⟩ else none⟩
      (fun s => s) (fun _ _ => 0) (fun _ _ => none) ⟨fun _ => 0, 0⟩ "t"
      (.obj []) false "ts" = .error "empty range in randrange(5, 4)" := by
  have hgen : DataGenerator.generate
      (.obj [("type", .str "integer"), ("minimum", .int 5), ("maximum", .int 3)])
      ⟨fun _ => 0, 0⟩ = .error "empty range in randrange(5, 4)" := by
    simp [DataGenerator.generate, jGetD, jGet, jlookup, isStr, expectIntArg, randint,
      bind, Except.bind]
    norm_num
    decide
  exact ⟨hgen, c2_synthesis_exception_propagates _ _ _ _ _ _ _ _ _
    ⟨"t", .obj [],
      .obj [("type", .str "integer"), ("minimum", .int 5), ("maximum", .int 3)],
      "", "v1"⟩ _ (by decide) rfl rfl rfl hgen⟩

/-! ### data_generator.DataGenerator: the depth-bounded, reference-aware
synthesizer -/

namespace data_generator

/-- Modelled from the spec: OpenAPINormalized, the normalized structure the
external OpenAPI loader hands the core. src/data_generator.py imports it
from type but no source file defines it; only its schemas-by-name lookup is
consulted here. -/
structure OpenAPINormalized where
  schemas : List (String × JVal)

/-- Modelled from the spec: utils.resolve_schema, imported by
src/data_generator.py but absent from the source files. Per the spec: a
node without a reference marker is returned unchanged; a reference of the
form #/components/schemas/Name is looked up in the table, returning the
match if found, else the original node; non-matching reference syntaxes
pass through; resolution never raises. -/
def resolve_schema (open_api_spec : OpenAPINormalized) (schema : JVal) : JVal :=
  match jGet schema "$ref" with
  | some (.str r) =>
    if "#/components/schemas/".isPrefixOf r then
      match jlookup (r.drop "#/components/schemas/".length) open_api_spec.schemas with
      | some s => s
      | none => schema
    else schema
  | _ => schema

/-- A value in [low, high] from one draw, the state effect of a randint
call whose bounds are in-range constants. -/
def randIn (low high : Nat) (g : GenState) : Nat × GenState :=
  let (v, g1) := g.next
  (low + v % (high - low + 1), g1)

/-- data_generator.DataGenerator._string: canned or randomized values for
the known string formats, else an s_ prefixed random tag. -/
def strFormat (fmt : JVal) (g : GenState) : String × GenState :=
  match fmt with
  | .str "date-time" => ("2025-01-01T00:00:00Z", g)
  | .str "uuid" =>
    let (bits, g1) := getrandbits 128 g
    (toHex32 bits, g1)
  | .str "date" => ("2025-01-01", g)
  | .str "email" =>
    let (v, g1) := randIn 1000 9999 g
    ("user" ++ toString v ++ "@example.com", g1)
  | .str "uri" =>
    let (v, g1) := randIn 1 9999 g
    ("https://api.example.com/resource/" ++ toString v, g1)
  | .str "url" =>
    let (v, g1) := randIn 1 9999 g
    ("https://api.example.com/resource/" ++ toString v, g1)
  | _ =>
    let (v, g1) := randrange 1000000 g
    ("s_" ++ toString v, g1)

/-- A random lowercase string of the given length, one draw per
character. -/
def randLower : Nat → GenState → String × GenState
  | 0, g => ("", g)
  | n + 1, g =>
    let (i, g1) := randrange 26 g
    let (rest, g2) := randLower n g1
    (String.mk [Char.ofNat (97 + i % 26)] ++ rest, g2)

/-- str() of a schema value used inside the match: sentinel f-string. -/
def jStr : JVal → String
  | .str s => s
  | .int n => toString n
  | .num q => numRepr q
  | .bool true => "True"
  | .bool false => "False"
  | .null => "None"
  | .arr _ => "<list>"
  | .obj _ => "<dict>"

/-- Python float(x) coercion for schema bounds. -/
def pyFloatCoerce : JVal → Except String ℚ
  | .int n => .ok (n : ℚ)
  | .num q => .ok q
  | .bool b => .ok (if b then 1 else 0)
  | _ => .error "float() argument must be a number"

/-- dict.update: keys of the second mapping overwrite, new keys append. -/
def dictUpdate (acc new : List (String × JVal)) : List (String × JVal) :=
  (acc.map fun kv =>
    match jlookup kv.1 new with
    | some v => (kv.1, v)
    | none => kv)
  ++ new.filter (fun kv => (jlookup kv.1 acc).isNone)

/-- generate_sensible_default: the fallback sentinel object. -/
def generate_sensible_default : JVal :=
  .obj [("value", .null),
    ("note", .str "auto-generated fallback; please refine via schema examples/defaults/enums")]

/-- The required-keys loop: setdefault with the non-recursive sentinel. -/
def fillRequired (keys : List String) (out : List (String × JVal)) :
    List (String × JVal) :=
  match keys with
  | [] => out
  | k :: rest =>
    let out2 := if (jlookup k out).isSome then out else out ++ [(k, generate_sensible_default)]
    fillRequired rest out2

end data_generator

namespace data_generator

/-- The type tag comparison t == "object" and friends. -/
def tIs (t : Option JVal) (s : String) : Bool :=
  match t with
  | some v => isStr v s
  | none => false

mutual
/-- The dispatch of data_generator.DataGenerator.generate below the depth
guard, in source order: example, default, enum, reference resolution,
type-list collapse, oneOf / anyOf / allOf, object, array, string, integer,
number, boolean, fallback sentinel. The recursive generate calls at
depth + 1 appear with the top of generate (its non-dict and depth checks)
unfolded once, so that generate itself can stay outside this block. -/
def generateBody (open_api_spec : OpenAPINormalized) (schema : JVal) (depth : Nat)
    (hdep : depth ≤ 6) (g : GenState) : Except String (JVal × GenState) :=
    match jGet schema "example" with
    | some v => .ok (v, g)
    | none =>
    match jGet schema "default" with
    | some v => .ok (v, g)
    | none =>
    let enumOpt : Option (List JVal) :=
      match jGet schema "enum" with
      | some (.arr xs) => if xs.isEmpty then none else some xs
      | _ => none
    match enumOpt with
    | some xs =>
      let (i, g1) := randrange xs.length g
      .ok (xs.getD i .null, g1)
    | none =>
    -- schema = resolve_schema(open_api_spec, schema) when a reference is present
    let schema2 :=
      if hasKey schema "$ref" then resolve_schema open_api_spec schema else schema
    match schema2 with
    | .obj _ =>
      let t0 : Option JVal :=
        match jGet schema2 "type" with
        | some JVal.null => none
        | x => x
      let tE : Option (Option JVal) :=
        match t0 with
        | some (.arr ts) =>
          match ts.find? (fun x => !(isStr x "null")) with
          | none => none
          | some JVal.null => some none
          | some x => some (some x)
        | other => some other
      match tE with
      | none => .ok (.null, g)
      | some t =>
      let tFalsy : Bool :=
        match t with
        | none => true
        | some v => !jTruthy v
      if tFalsy && hasKey schema2 "oneOf" then
        match jGet schema2 "oneOf" with
        | some (.arr xs) =>
          if xs.isEmpty then .error "Cannot choose from an empty sequence"
          else
            let (i, g1) := randrange xs.length g
            match resolve_schema open_api_spec (xs.getD i .null) with
            | .obj cf =>
              if hx : depth + 1 > 6 then .ok (.null, g1)
              else generateBody open_api_spec (.obj cf) (depth + 1) (by omega) g1
            | _ => .ok (.null, g1)
        | _ => .error "object is not subscriptable"
      else if tFalsy && hasKey schema2 "anyOf" then
        match jGet schema2 "anyOf" with
        | some (.arr xs) =>
          if xs.isEmpty then .error "Cannot choose from an empty sequence"
          else
            let (i, g1) := randrange xs.length g
            match resolve_schema open_api_spec (xs.getD i .null) with
            | .obj cf =>
              if hx : depth + 1 > 6 then .ok (.null, g1)
              else generateBody open_api_spec (.obj cf) (depth + 1) (by omega) g1
            | _ => .ok (.null, g1)
        | _ => .error "object is not subscriptable"
      else if tFalsy && hasKey schema2 "allOf" then
        match jGet schema2 "allOf" with
        | some (.arr xs) => do
          let (acc, g1) ← genAllOf open_api_spec xs (depth + 1) [] g
          .ok (.obj acc, g1)
        | _ => .error "object is not iterable"
      else if tIs t "object" || hasKey schema2 "properties" then
        match jGet schema2 "properties" with
        | some (.obj pf) => do
          let required ← requiredKeys schema2
          let (out, g1) ← genFieldsD open_api_spec pf (depth + 1) g
          .ok (.obj (fillRequired required out), g1)
        | some _ => do
          let _ ← requiredKeys schema2
          .error "properties object has no attribute items"
        | none => do
          let required ← requiredKeys schema2
          .ok (.obj (fillRequired required []), g)
      else if tIs t "array" then
        let items := resolve_schema open_api_spec
          (jGetD schema2 "items" (.obj [("type", .str "string")]))
        do
          let min_items ← pyIntCoerce (jGetD schema2 "minItems" (.int 1))
          let max_items ← pyIntCoerce
            (jGetD schema2 "maxItems" (.int (max 1 (min_items + 2))))
          let (len, g1) ← randint min_items (min max_items (min_items + 2)) g
          let (vs, g2) ← genRepeat open_api_spec items len.toNat (depth + 1) g1
          .ok (.arr vs, g2)
      else if tIs t "string"
          || (t.isNone && !hasKey schema2 "properties" && !hasKey schema2 "items") then do
        let min_len ← pyIntCoerce (jGetD schema2 "minLength" (.int 1))
        let max_len ← pyIntCoerce (jGetD schema2 "maxLength" (.int (max 8 min_len)))
        let patOpt : Option JVal :=
          match jGet schema2 "pattern" with
          | some p => if jTruthy p then some p else none
          | none => none
        match patOpt with
        | some p => .ok (.str ("match:" ++ jStr p), g)
        | none =>
          let fmtOpt : Option JVal :=
            match jGet schema2 "format" with
            | some f => if jTruthy f then some f else none
            | none => none
          match fmtOpt with
          | some f =>
            let (s, g1) := strFormat f g
            .ok (.str s, g1)
          | none => do
            let (n, g1) ← randint min_len max_len g
            let (s, g2) := randLower n.toNat g1
            .ok (.str s, g2)
      else if tIs t "integer" then do
        let low ← pyIntCoerce (jGetD schema2 "minimum" (.int 0))
        let high ← pyIntCoerce (jGetD schema2 "maximum" (.int (max low 1000)))
        let (v, g1) ← randint low high g
        .ok (.int v, g1)
      else if tIs t "number" then do
        let low ← pyFloatCoerce (jGetD schema2 "minimum" (.num 0))
        let high ← pyFloatCoerce (jGetD schema2 "maximum" (.num (max low 1000)))
        let (v, g1) := pyUniform low high g
        .ok (.num v, g1)
      else if tIs t "boolean" then
        let (b, g1) := getrandbits 1 g
        .ok (.bool (b == 1), g1)
      else
        .ok (generate_sensible_default, g)
    | _ => .error "object has no attribute get"
termination_by ((8 - depth) * 2, 0)
decreasing_by
  all_goals apply Prod.Lex.left
  all_goals omega

/-- The allOf loop: resolve and synthesize every branch at depth + 1,
merging the resulting mappings in declaration order. The generate call is
unfolded once as in generateBody. -/
def genAllOf (open_api_spec : OpenAPINormalized) (parts : List JVal)
    (depth' : Nat) (acc : List (String × JVal)) (g : GenState) :
    Except String (List (String × JVal) × GenState) :=
  match parts with
  | [] => .ok (acc, g)
  | p :: rest => do
    let (ex, g1) ←
      match resolve_schema open_api_spec p with
      | .obj cf =>
        if hx : depth' > 6 then Except.ok (JVal.null, g)
        else generateBody open_api_spec (.obj cf) depth' (by omega) g
      | _ => Except.ok (JVal.null, g)
    let acc2 :=
      match ex with
      | .obj f => dictUpdate acc f
      | _ => acc
    genAllOf open_api_spec rest depth' acc2 g1
termination_by ((8 - depth') * 2 + 1, parts.length)
decreasing_by
  all_goals first
    | (apply Prod.Lex.right
       simp)
    | (apply Prod.Lex.right
       omega)
    | (apply Prod.Lex.left
       omega)

/-- The declared-properties loop: resolve each property schema and
synthesize it at depth + 1. The generate call is unfolded once as in
generateBody. -/
def genFieldsD (open_api_spec : OpenAPINormalized) (pf : List (String × JVal))
    (depth' : Nat) (g : GenState) :
    Except String (List (String × JVal) × GenState) :=
  match pf with
  | [] => .ok ([], g)
  | (k, sub) :: rest => do
    let (v, g1) ←
      match resolve_schema open_api_spec sub with
      | .obj cf =>
        if hx : depth' > 6 then Except.ok (JVal.null, g)
        else generateBody open_api_spec (.obj cf) depth' (by omega) g
      | _ => Except.ok (JVal.null, g)
    let (out, g2) ← genFieldsD open_api_spec rest depth' g1
    .ok ((k, v) :: out, g2)
termination_by ((8 - depth') * 2 + 1, pf.length)
decreasing_by
  all_goals first
    | (apply Prod.Lex.right
       simp)
    | (apply Prod.Lex.right
       omega)
    | (apply Prod.Lex.left
       omega)

/-- The array comprehension: n items from the resolved item schema at
depth + 1. The generate call is unfolded once as in generateBody. -/
def genRepeat (open_api_spec : OpenAPINormalized) (items : JVal) (n : Nat)
    (depth' : Nat) (g : GenState) : Except String (List JVal × GenState) :=
  match n with
  | 0 => .ok ([], g)
  | n + 1 => do
    let (v, g1) ←
      match items with
      | .obj cf =>
        if hx : depth' > 6 then Except.ok (JVal.null, g)
        else generateBody open_api_spec (.obj cf) depth' (by omega) g
      | _ => Except.ok (JVal.null, g)
    let (rest, g2) ← genRepeat open_api_spec items n depth' g1
    .ok (v :: rest, g2)
termination_by ((8 - depth') * 2 + 1, n)
decreasing_by
  all_goals first
    | (apply Prod.Lex.right
       simp)
    | (apply Prod.Lex.right
       omega)
    | (apply Prod.Lex.left
       omega)
end

/-- data_generator.DataGenerator.generate: a non-dict synthesizes to null;
past the fixed depth bound 6 the recursion guard returns null regardless of
schema shape; otherwise the dispatch of generateBody runs. -/
def generate (open_api_spec : OpenAPINormalized) (schema : JVal) (depth : Nat)
    (g : GenState) : Except String (JVal × GenState) :=
  match schema with
  | .obj _ =>
    if hdep : depth > 6 then .ok (.null, g)
    else generateBody open_api_spec schema depth (by omega) g
  | _ => .ok (.null, g)

end data_generator

/-- C6. Depth bound / termination: data_generator.DataGenerator.generate is
total in this embedding (the termination checker accepts it, so synthesis
terminates on every schema, including self-referential reference chains),
and whenever the depth parameter exceeds the fixed bound 6 it returns null
and leaves the random state untouched, regardless of schema shape. -/
theorem c6_depth_guard (open_api_spec : data_generator.OpenAPINormalized)
    (schema : JVal) (depth : Nat) (g : GenState) (hdep : depth > 6) :
    data_generator.generate open_api_spec schema depth g = .ok (.null, g) := by
  cases schema <;> simp [data_generator.generate, hdep]

/-- C6 witness: the guard evaluated past the bound on a self-referential
schema (an object whose property references itself by name). -/
theorem c6_depth_guard_witness :
    7 > 6
    ∧ data_generator.generate
      ⟨[("Node", .obj [("type", .str "object"),
        ("properties", .obj [("next", .obj [("$ref", .str "#/components/schemas/Node")])])])]⟩
      (.obj [("$ref", .str "#/components/schemas/Node")]) 7 ⟨fun _ => 0, 0⟩
      = .ok (.null, ⟨fun _ => 0, 0⟩) :=
  ⟨by decide,
   c6_depth_guard
     ⟨[("Node", .obj [("type", .str "object"),
       ("properties", .obj [("next", .obj [("$ref", .str "#/components/schemas/Node")])])])]⟩
     (.obj [("$ref", .str "#/components/schemas/Node")]) 7 ⟨fun _ => 0, 0⟩ (by decide)⟩
